import Mathlib

/-!
Shallow embedding of the leibniz-lang runtime (src/runtime.rs): the value
algebra (complex numbers, vectors, arrays, the full operator matrix, gamma
and factorial) and the tree-walking evaluator with its mutable state
(globals, locals, functions, the in_function flag).

Floating-point numbers (f64) are modelled by exact rationals; the
transcendental host functions (sin, exp, powc, sqrt, the complex remainder,
the complex modulus) and the f64 values of pi and e are abstracted as an
`Ops` record of parameters, so every theorem quantifying over `Ops` holds
for any implementation of those functions.
-/

namespace Leib

/-- A complex number: two f64 components, modelled as exact rationals
(mirrors `num_complex::Complex64` as used by `runtime.rs`). -/
structure CQ where
  re : ℚ
  im : ℚ
deriving DecidableEq

namespace CQ

def add (a b : CQ) : CQ := ⟨a.re + b.re, a.im + b.im⟩

def sub (a b : CQ) : CQ := ⟨a.re - b.re, a.im - b.im⟩

def mul (a b : CQ) : CQ := ⟨a.re * b.re - a.im * b.im, a.re * b.im + a.im * b.re⟩

/-- Complex division `(a + bi) / (c + di)`, the exact field formula
(num_complex computes the same quotient up to f64 rounding). -/
def div (a b : CQ) : CQ :=
  ⟨(a.re * b.re + a.im * b.im) / (b.re * b.re + b.im * b.im),
   (a.im * b.re - a.re * b.im) / (b.re * b.re + b.im * b.im)⟩

def neg (a : CQ) : CQ := ⟨-a.re, -a.im⟩

def ofQ (q : ℚ) : CQ := ⟨q, 0⟩

instance : Add CQ := ⟨CQ.add⟩
instance : Sub CQ := ⟨CQ.sub⟩
instance : Mul CQ := ⟨CQ.mul⟩
instance : Div CQ := ⟨CQ.div⟩
instance : Neg CQ := ⟨CQ.neg⟩

end CQ

/-- The host numeric environment: the transcendental f64 functions used by
`runtime.rs` and the f64 constants, abstracted as parameters.  Theorems
quantified over `Ops` hold for every implementation. -/
structure Ops where
  pival : ℚ
  euler : ℚ
  csin : CQ → CQ
  ccos : CQ → CQ
  ctan : CQ → CQ
  cln : CQ → CQ
  clog10 : CQ → CQ
  clogn : ℚ → CQ → CQ
  cexp : CQ → CQ
  csqrt : CQ → CQ
  cpow : CQ → CQ → CQ
  crem : CQ → CQ → CQ
  cnorm : CQ → ℚ
  rpow : ℚ → ℚ → ℚ
  elapsed : ℚ
  vsize : ℚ

/-- `enum Value` of runtime.rs: `Number(Complex64)`, `Vector(f64, f64)`,
`Array(Vec<Value>)`. -/
inductive Value where
  | number (c : CQ)
  | vector (x y : ℚ)
  | array (elems : List Value)

namespace Value

/-- `Value::real` -/
def real (r : ℚ) : Value := .number ⟨r, 0⟩

/-- `Value::imaginary` -/
def imaginary (i : ℚ) : Value := .number ⟨0, i⟩

/-- `impl PartialEq for Value`: numbers compare componentwise, vectors
componentwise, and an `Array` is never equal to anything (the `Array(_) =>
false` arm), not even itself. -/
def beqSrc : Value → Value → Bool
  | .number n, .number n2 => n.re = n2.re ∧ n.im = n2.im
  | .number _, _ => false
  | .vector x y, .vector x2 y2 => x = x2 ∧ y = y2
  | .vector _ _, _ => false
  | .array _, _ => false

/-- `Value::equals`: total, returns `Number(1)` or `Number(0)`. -/
def equals (a b : Value) : Value :=
  if beqSrc a b then real 1 else real 0

/-- `Value::push`: appends onto an array, no-op otherwise. -/
def push (v w : Value) : Value :=
  match v with
  | .array arr => .array (arr ++ [w])
  | _ => v

/-- `Value::expect_real` -/
def expectReal (v : Value) (msg : String) : Except String ℚ :=
  match v with
  | .number c => if c.im = 0 then .ok c.re else .error msg
  | _ => .error msg

/-- `Value::expect_complex` -/
def expectComplex (v : Value) (msg : String) : Except String CQ :=
  match v with
  | .number c => .ok c
  | _ => .error msg

/-- `Value::expect_vector` -/
def expectVector (v : Value) (msg : String) : Except String (ℚ × ℚ) :=
  match v with
  | .vector x y => .ok (x, y)
  | _ => .error msg

/-- `Value::expect_array` -/
def expectArray (v : Value) (msg : String) : Except String (List Value) :=
  match v with
  | .array arr => .ok arr
  | _ => .error msg

end Value

/-- `impl ops::Add for Value`. -/
def valueAdd : Value → Value → Except String Value
  | .number c, .number c2 => .ok (.number (c + c2))
  | .number _, .vector _ _ => .error "cannot add a number to a vector"
  | .number c, .array arr => .ok ((Value.array arr).push (.number c))
  | .vector _ _, .number _ => .error "cannot add a vector to a number"
  | .vector x y, .vector x2 y2 => .ok (.vector (x + x2) (y + y2))
  | .vector x y, .array arr => .ok ((Value.array arr).push (.vector x y))
  | .array arr, rhs => .ok ((Value.array arr).push rhs)

/-- `impl ops::Sub for Value`. -/
def valueSub : Value → Value → Except String Value
  | .number c, .number c2 => .ok (.number (c - c2))
  | .number _, .vector _ _ => .error "cannot subtract a number from a vector"
  | .number _, .array _ => .error "cannot subtract an array from a number"
  | .vector _ _, .number _ => .error "cannot subtract a vector from a number"
  | .vector x y, .vector x2 y2 => .ok (.vector (x - x2) (y - y2))
  | .vector _ _, .array _ => .error "cannot subtract an array from a vector"
  | .array _, .number _ => .error "cannot subtract a number from an array"
  | .array _, .vector _ _ => .error "cannot subtract a vector from an array"
  | .array _, .array _ => .error "cannot subtract an array from an array"

/-- `impl ops::Mul for Value`. -/
def valueMul : Value → Value → Except String Value
  | .number c, .number c2 => .ok (.number (c * c2))
  | .number c, .vector x y =>
    if c.im ≠ 0 then .error "cannot multiply a vector with a complex number"
    else .ok (.vector (x * c.re) (y * c.re))
  | .number _, .array _ => .error "cannot multiply a number by an array"
  | .vector x y, .number c =>
    if c.im ≠ 0 then .error "cannot multiply a vector with a complex number"
    else .ok (.vector (x * c.re) (y * c.re))
  | .vector _ _, .vector _ _ =>
    .error "cannot multiply a vector with a vector. use dot(vector, vector) or cross(vector, vector) instead"
  | .vector _ _, .array _ => .error "cannot multiply an array with a vector"
  | .array _, .number _ => .error "cannot multiply an array by a number"
  | .array _, .vector _ _ => .error "cannot multiply an array with a vector"
  | .array _, .array _ => .error "cannot multiply an array by an array"

/-- `impl ops::Div for Value`. -/
def valueDiv : Value → Value → Except String Value
  | .number c, .number c2 => .ok (.number (c / c2))
  | .number c, .vector x y =>
    if c.im ≠ 0 then .error "cannot divide a vector by a complex number"
    else .ok (.vector (x / c.re) (y / c.re))
  | .number _, .array _ => .error "cannot divide a number by an array"
  | .vector x y, .number c =>
    if c.im ≠ 0 then .error "cannot divide a vector by a complex number"
    else .ok (.vector (x / c.re) (y / c.re))
  | .vector _ _, .vector _ _ => .error "cannot divide a vector by a vector"
  | .vector _ _, .array _ => .error "cannot divide a vector by an array"
  | .array _, .number _ => .error "cannot divide an array by a number"
  | .array _, .vector _ _ => .error "cannot divide an array by a vector"
  | .array _, .array _ => .error "cannot divide an array by an array"

/-- `impl ops::Rem for Value`; the complex `%` of the host library is the
abstract `Ops.crem`. -/
def valueRem (O : Ops) : Value → Value → Except String Value
  | .number c, .number c2 => .ok (.number (O.crem c c2))
  | .number _, .vector _ _ => .error "cannot find remainder between number and vector"
  | .number _, .array _ => .error "cannot find remainder of number in terms of array"
  | .vector _ _, .number _ => .error "cannot find remainder between vector and number"
  | .vector _ _, .vector _ _ => .error "cannot find remainder between vector and vector"
  | .vector _ _, .array _ => .error "cannot find remainder between vector and array"
  | .array _, .number _ => .error "cannot find remainder between arraay and number"
  | .array _, .vector _ _ => .error "cannot find remainder between array and number"
  | .array _, .array _ => .error "cannot find remainder between array and array"

/-- `Value::pow`: `0^anything = 0` when the base is exactly (0,0),
`x^0 = 1` when the exponent is exactly (0,0), complex `powc` otherwise. -/
def valuePow (O : Ops) : Value → Value → Except String Value
  | .number c, .number c2 =>
    if c.im = 0 ∧ c.re = 0 then .ok (Value.real 0)
    else if c2.im = 0 ∧ c2.re = 0 then .ok (Value.real 1)
    else .ok (.number (O.cpow c c2))
  | .number _, .vector _ _ => .error "cannot raise a number to a vector power"
  | .number _, .array _ => .error "cannot raise a number to an array power"
  | .vector x y, .number c =>
    if c.im ≠ 0 then .error "cannot raise vector to a complex power"
    else .ok (.vector (O.rpow x c.re) (O.rpow y c.re))
  | .vector _ _, .vector _ _ => .error "cannot raise a vector to a vector power"
  | .vector _ _, .array _ => .error "cannot raise a vector to an array power"
  | .array _, .number _ => .error "cannot raise array to a number power"
  | .array _, .vector _ _ => .error "cannot raise array to a vector power"
  | .array _, .array _ => .error "cannot raise array to an array power"

/-- `Value::greater_than`: numbers compared by complex modulus (`Ops.cnorm`). -/
def valueGt (O : Ops) : Value → Value → Except String Value
  | .number c, .number c2 =>
    .ok (if O.cnorm c > O.cnorm c2 then Value.real 1 else Value.real 0)
  | .number _, .vector _ _ => .error "cannot compare greater-than between a number and vector"
  | .number _, .array _ => .error "cannot compare greater-than between a number and array"
  | .vector _ _, .number _ => .error "cannot compare greater-than between a vector and a number"
  | .vector _ _, .vector _ _ => .error "cannot compare greater-than between a vector and a vector"
  | .vector _ _, .array _ => .error "cannot compare greater-than between a vector and an array"
  | .array _, .number _ => .error "cannot compare greater-than between an array and a number"
  | .array _, .vector _ _ => .error "cannot compare greater-than between an array and a vector"
  | .array _, .array _ => .error "cannot compare greater-than between an array and an array"

/-- `Value::less_than`. -/
def valueLt (O : Ops) : Value → Value → Except String Value
  | .number c, .number c2 =>
    .ok (if O.cnorm c < O.cnorm c2 then Value.real 1 else Value.real 0)
  | .number _, .vector _ _ => .error "cannot compare less-than between a number and a vector"
  | .number _, .array _ => .error "cannot compare less-than between a number and an array"
  | .vector _ _, .number _ => .error "cannot compare less-than between a vector and a number"
  | .vector _ _, .vector _ _ => .error "cannot compare less-than between a vector and a vector"
  | .vector _ _, .array _ => .error "cannot compare less-than between a vector and an array"
  | .array _, .number _ => .error "cannot compare less-than between an array and a number"
  | .array _, .vector _ _ => .error "cannot compare less-than between an array and a vector"
  | .array _, .array _ => .error "cannot compare less-than between an array and an array"

/-- `Value::greater_than_or_equals`. -/
def valueGe (O : Ops) : Value → Value → Except String Value
  | .number c, .number c2 =>
    .ok (if O.cnorm c ≥ O.cnorm c2 then Value.real 1 else Value.real 0)
  | .number _, .vector _ _ => .error "cannot compare greater-than-or-equals between a number and vector"
  | .number _, .array _ => .error "cannot compare greater-than-or-equals between a number and an array"
  | .vector _ _, .number _ => .error "cannot compare greater-than-or-equals between a vector and a number"
  | .vector _ _, .vector _ _ => .error "cannot compare greater-than-or-equals between a vector and a vector"
  | .vector _ _, .array _ => .error "cannot compare greater-than-or-equals between a vector and an array"
  | .array _, .number _ => .error "cannot compare greater-than-or-equals between an array and a number"
  | .array _, .vector _ _ => .error "cannot compare greater-than-or-equals between an array and a vector"
  | .array _, .array _ => .error "cannot compare greater-than-or-equals between an array and an array"

/-- `Value::less_than_or_equals`. -/
def valueLe (O : Ops) : Value → Value → Except String Value
  | .number c, .number c2 =>
    .ok (if O.cnorm c ≤ O.cnorm c2 then Value.real 1 else Value.real 0)
  | .number _, .vector _ _ => .error "cannot compare less-than-or-equals between a number and vector"
  | .number _, .array _ => .error "cannot compare less-than-or-equals between a number and an array"
  | .vector _ _, .number _ => .error "cannot compare less-than-or-equals between a vector and a number"
  | .vector _ _, .vector _ _ => .error "cannot compare less-than-or-equals between a vector and a vector"
  | .vector _ _, .array _ => .error "cannot compare less-than-or-equals between a vector and an array"
  | .array _, .number _ => .error "cannot compare less-than-or-equals between an array and a number"
  | .array _, .vector _ _ => .error "cannot compare less-than-or-equals between an array and a vector"
  | .array _, .array _ => .error "cannot compare less-than-or-equals between an array and an array"

/-- The eight Lanczos coefficients `P` of `Value::gamma`, as the exact
rationals denoted by the source's f64 literals. -/
def lanczosP : List ℚ :=
  [676.5203681218851, -1259.1392167224028,
   771.32342877765313, -176.61502916214059,
   12.507343278686905, -0.13857109526572012,
   9.9843695780195716e-6, 1.5056327351493116e-7]

/-- The `else` branch of `Value::gamma` (the Lanczos evaluation): receives
the gamma argument `c0`, shifts it by `c -= 1.0`, accumulates
`x += P[i] / (c + i + 1)` for `i` in `0..8`, and returns
`sqrt(2*pi) * t^(c+0.5) * exp(-t) * x` with `t = c + 8 - 0.5`. -/
def lanczos (O : Ops) (c0 : CQ) : CQ :=
  let c := c0 - CQ.ofQ 1
  let x := (List.range 8).foldl
    (fun x i => x + CQ.ofQ (lanczosP.getD i 0) / (c + CQ.ofQ ((i : ℚ) + 1)))
    (CQ.ofQ 0.99999999999980993)
  let t := c + CQ.ofQ 8 - CQ.ofQ 0.5
  O.csqrt (CQ.ofQ 2 * CQ.ofQ O.pival) * O.cpow t (c + CQ.ofQ 0.5) * O.cexp (-t) * x

/-- `Value::gamma` as written in runtime.rs: for `re < 0.5` the code
computes `pi / (sin(pi*c) * (1 - c))` and then applies `gamma` to that
whole quotient (the recursive call wraps the entire expression);
otherwise it evaluates the Lanczos branch.  `none` is fuel exhaustion
(the Rust recursion has no termination guard on this path). -/
def gammaValue (O : Ops) : Nat → Value → Option (Except String Value)
  | 0, _ => none
  | f + 1, v =>
    match v.expectComplex "cannot calculate gamma for non-number" with
    | .error e => some (.error e)
    | .ok c =>
      let piC := CQ.ofQ O.pival
      if c.re < 0.5 then
        gammaValue O f (.number (piC / (O.csin (piC * c) * (CQ.ofQ 1 - c))))
      else
        some (.ok (.number (lanczos O c)))

/-- Modelled from the spec: the gamma function the spec describes (and the
standard Lanczos algorithm uses) — for `re < 0.5` the reflection identity
`gamma(z) = pi / (sin(pi*z) * gamma(1-z))`, with gamma applied recursively
to `1 - z` only; same Lanczos branch otherwise.  Used solely to compare
the source's `Value::gamma` against the specified behavior. -/
def gammaSpecValue (O : Ops) : Nat → Value → Option (Except String Value)
  | 0, _ => none
  | f + 1, v =>
    match v.expectComplex "cannot calculate gamma for non-number" with
    | .error e => some (.error e)
    | .ok c =>
      let piC := CQ.ofQ O.pival
      if c.re < 0.5 then
        match gammaSpecValue O f (.number (CQ.ofQ 1 - c)) with
        | none => none
        | some (.error e) => some (.error e)
        | some (.ok (.number g)) =>
          some (.ok (.number (piC / (O.csin (piC * c) * g))))
        | some (.ok _) => none
      else
        some (.ok (.number (lanczos O c)))

/-- Two's-complement wrap of an integer into the `i64` range
`[-2^63, 2^63)` (the literals are 2^63 and 2^64): the release-mode Rust
semantics of `i64` overflow (a debug build would panic instead). -/
def wrap64 (z : ℤ) : ℤ :=
  (z + 9223372036854775808) % 18446744073709551616 - 9223372036854775808

/-- The Rust `as i64` cast of an f64 (here an exact rational): truncation
toward zero, saturating at the `i64` bounds. -/
def castI64 (q : ℚ) : ℤ :=
  max (-9223372036854775808) (min 9223372036854775807 (q.num.tdiv (q.den : ℤ)))

/-- The `i64` accumulator of the Factorial arm: `factorial = m;
for n in (2..m).rev() { factorial *= n }`, with every multiplication
wrapping in `i64` (so the result is the exact product only while it stays
below 2^63, i.e. for `m <= 20`). -/
def factAcc (m : ℤ) : ℤ :=
  (((List.range m.toNat).drop 2).reverse).foldl (fun acc n => wrap64 (acc * (n : ℤ))) m

/-- The Factorial arm of `RuntimeState::evaluate`, applied to the evaluated
operand: a real, positive, integer-valued number takes the integer product
computed in the wrapping `i64` accumulator; exactly 0 maps to 1;
everything else that is a number goes through `gamma(c + 1)`; a non-number
fails.  (`fract() == 0.0` on an f64 is modelled as the rational having
denominator 1; `c.re as i64` is `castI64`.) -/
def factorialValue (O : Ops) (fuel : Nat) (v : Value) : Option (Except String Value) :=
  match v.expectComplex "attempted to find factorial of non-number" with
  | .error e => some (.error e)
  | .ok c =>
    if c.im = 0 ∧ 0 < c.re ∧ c.re.den = 1 then
      some (.ok (Value.real ((factAcc (castI64 c.re) : ℤ) : ℚ)))
    else if c.re = 0 ∧ c.im = 0 then
      some (.ok (Value.real 1))
    else
      gammaValue O fuel (.number (c + CQ.ofQ 1))

/-- Modelled from the spec: the binary operators of the syntax tree
(`crate::parser::Operator`, whose source file is not part of the tree;
variants taken from §3/§4.1 of the spec and their uses in runtime.rs). -/
inductive Op where
  | add
  | subtract
  | multiply
  | divide
  | power
  | modulo
  | equals
  | greaterThan
  | lessThan
  | greaterThanOrEquals
  | lessThanOrEquals

/-- Modelled from the spec: the syntax tree (`crate::parser::ParserNode`,
whose source file is not part of the tree; variants and fields taken from
§3 of the spec and their uses in runtime.rs). -/
inductive Node where
  | number (num : ℚ) (imaginary : Bool)
  | identifier (name : String)
  | operation (left : Node) (op : Op) (right : Node)
  | functionCall (name : String) (args : List Node)
  | functionDeclaration (name : String) (params : List String) (body : Node)
  | variableDeclaration (name : String) (expr : Node)
  | conditional (pred tbr fbr : Node)
  | loop (param : String) (rng : Node) (body : Node)
  | assignment (targets : List String) (expr : Node)
  | factorial (expr : Node)
  | tree (nodes : List Node)
  | arrayLit (elems : List Node)
  | indexAccess (arr idx : Node)
  | range (first second step : Node)

/-- A name-keyed table; models Rust's `HashMap` (insert overwrites, remove
deletes; iteration order is never observed by the runtime). -/
def Table (α : Type) : Type := List (String × α)

def tset {α : Type} : Table α → String → α → Table α
  | [], k, v => [(k, v)]
  | (k', v') :: rest, k, v =>
    if k' = k then (k, v) :: rest else (k', v') :: tset rest k v

def tget {α : Type} : Table α → String → Option α
  | [], _ => none
  | (k', v') :: rest, k => if k' = k then some v' else tget rest k

def tdel {α : Type} : Table α → String → Table α
  | [], _ => []
  | (k', v') :: rest, k => if k' = k then rest else (k', v') :: tdel rest k

/-- `struct RuntimeState`: globals, locals, user functions (the stored
`FunctionDeclaration` nodes) and the `in_function` flag.  The builtin
registry is populated once and never mutated, so it is modelled by the
fixed functions `isBuiltin` / `builtinParamCount` / `builtinRun` below;
`start_instant` is a wall-clock anchor, abstracted into `Ops.elapsed`. -/
structure State where
  globals : Table Value
  locals : Table Value
  functions : Table Node
  in_function : Bool

namespace State

def addGlobal (s : State) (n : String) (v : Value) : State :=
  { s with globals := tset s.globals n v }

def addLocal (s : State) (n : String) (v : Value) : State :=
  { s with locals := tset s.locals n v }

def removeLocal (s : State) (n : String) : State :=
  { s with locals := tdel s.locals n }

def hasLocal (s : State) (n : String) : Bool := (tget s.locals n).isSome

def hasGlobal (s : State) (n : String) : Bool := (tget s.globals n).isSome

def addFunction (s : State) (n : String) (node : Node) : State :=
  { s with functions := tset s.functions n node }

end State

/-- The names in the builtin registry installed by
`add_default_globals_and_functions`. -/
def builtinNames : List String :=
  ["vec", "x", "y", "sin", "cos", "tan", "log", "logn", "ln", "print",
   "conjugate", "Re", "Im", "len", "rm", "ins", "mem", "clock"]

def isBuiltin (name : String) : Bool := builtinNames.contains name

/-- The fixed arity of each builtin. -/
def builtinParamCount : String → Nat
  | "vec" => 2
  | "logn" => 2
  | "rm" => 2
  | "ins" => 3
  | _ => 1

/-- `RuntimeState::has_function`: user functions or builtins. -/
def State.hasFunction (s : State) (n : String) : Bool :=
  (tget s.functions n).isSome || isBuiltin n

mutual

/-- `mem_size`: the per-value unit cost (`size_of::<Value>()`, abstracted
as `vs`), summed recursively through arrays. -/
def memSize (vs : ℚ) : Value → ℚ
  | .number _ => vs
  | .vector _ _ => vs
  | .array arr => vs + memSizeList vs arr

/-- Sum of `memSize` over the elements of an array. -/
def memSizeList (vs : ℚ) : List Value → ℚ
  | [] => 0
  | v :: rest => memSize vs v + memSizeList vs rest

end

/-- Insert at an index (Rust `Vec::insert`, index already bounds-checked). -/
def listIns {α : Type} : List α → Nat → α → List α
  | l, 0, a => a :: l
  | [], _ + 1, a => [a]
  | x :: l, n + 1, a => x :: listIns l n a

/-- The native bodies of the builtin registry, exactly as installed by
`add_default_globals_and_functions`.  `print`'s textual output is an
external side effect outside the value semantics; its returned value
(the argument, unchanged) is modelled.  `clock` reads the start-instant
anchor, abstracted as `Ops.elapsed`. -/
def builtinRun (O : Ops) : String → List Value → Except String Value
  | "vec", [a, b] => do
    let x ← a.expectReal "the x component of the vector is not a number"
    let y ← b.expectReal "the y component of the vector is not a number"
    .ok (.vector x y)
  | "x", [a] => do
    let v ← a.expectVector "expected vector to take x component out of"
    .ok (Value.real v.1)
  | "y", [a] => do
    let v ← a.expectVector "expected vector to take y component out of"
    .ok (Value.real v.2)
  | "sin", [a] => do
    let n ← a.expectComplex "expected number to find sine of"
    .ok (.number (O.csin n))
  | "cos", [a] => do
    let n ← a.expectComplex "expected number to find cosine of"
    .ok (.number (O.ccos n))
  | "tan", [a] => do
    let n ← a.expectComplex "expected number to find tangent of"
    .ok (.number (O.ctan n))
  | "log", [a] => do
    let n ← a.expectComplex "expected number to find logarithm of"
    .ok (.number (O.clog10 n))
  | "logn", [a, b] => do
    let n ← a.expectReal "expected real base to logarithm"
    let x ← b.expectComplex "expected number to find logarithm of"
    .ok (.number (O.clogn n x))
  | "ln", [a] => do
    let n ← a.expectComplex "expected number to find natural logarithm of"
    .ok (.number (O.cln n))
  | "print", [a] => .ok a
  | "conjugate", [a] => do
    let n ← a.expectComplex "expected a complex number to find conjugate of"
    .ok (.number ⟨n.re, -n.im⟩)
  | "Re", [a] => do
    let n ← a.expectComplex "expected a complex number to find real part of"
    .ok (Value.real n.re)
  | "Im", [a] => do
    let n ← a.expectComplex "expected a complex number to find imaginary part of"
    .ok (Value.real n.im)
  | "len", [a] => do
    let arr ← a.expectArray "expected an array to find length of"
    .ok (Value.real arr.length)
  | "rm", [a, b] => do
    let arr ← a.expectArray "expected an array to remove value from"
    let idx ← b.expectReal "expected a real number to index array with in rm(x, y)"
    if idx.den ≠ 1 ∨ idx < 0 ∨ (arr.length : ℚ) ≤ idx then
      .error ("cannot index array in rm(x, y) where y is " ++ toString idx)
    else
      .ok (.array (arr.eraseIdx idx.num.toNat))
  | "ins", [a, b, c] => do
    let arr ← a.expectArray "expected an array to remove value from"
    let idx ← b.expectReal "expected a real number to index array with in ins(x, y, z)"
    if idx.den ≠ 1 ∨ idx < 0 ∨ (arr.length : ℚ) ≤ idx then
      .error ("cannot index array in ins(x, y, z) where y is " ++ toString idx)
    else
      .ok (.array (listIns arr idx.num.toNat c))
  | "mem", [a] => .ok (Value.real (memSize O.vsize a))
  | "clock", [a] => do
    let t ← a.expectReal "expected real number in clock(x)"
    .ok (Value.real (O.elapsed - t))
  | _, _ => .error "unreachable"

/-- Dispatch of the Operation arm onto the value-algebra operators. -/
def applyOp (O : Ops) : Op → Value → Value → Except String Value
  | .add, a, b => valueAdd a b
  | .subtract, a, b => valueSub a b
  | .multiply, a, b => valueMul a b
  | .divide, a, b => valueDiv a b
  | .power, a, b => valuePow O a b
  | .modulo, a, b => valueRem O a b
  | .equals, a, b => .ok (a.equals b)
  | .greaterThan, a, b => valueGt O a b
  | .lessThan, a, b => valueLt O a b
  | .greaterThanOrEquals, a, b => valueGe O a b
  | .lessThanOrEquals, a, b => valueLe O a b

/-- An evaluation outcome: `none` is fuel exhaustion (a model artifact for
the unbounded Rust recursion), otherwise the updated state and the value
or first error. -/
def Res : Type := Option (State × Except String Value)

/-- Sequential left-to-right evaluation that stops at the first error
(Tree nodes, array literals). -/
def evalSeq (ev : State → Node → Res) :
    State → List Node → Option (State × Except String (List Value))
  | s, [] => some (s, .ok [])
  | s, n :: rest =>
    match ev s n with
    | none => none
    | some (s1, .error e) => some (s1, .error e)
    | some (s1, .ok v) =>
      match evalSeq ev s1 rest with
      | none => none
      | some (s2, .error e) => some (s2, .error e)
      | some (s2, .ok vs) => some (s2, .ok (v :: vs))

/-- Argument evaluation of the builtin path: the source `collect`s the
result of evaluating every argument (all of them, even after an error)
and only then scans for the first error. -/
def evalAll (ev : State → Node → Res) :
    State → List Node → Option (State × List (Except String Value))
  | s, [] => some (s, [])
  | s, n :: rest =>
    match ev s n with
    | none => none
    | some (s1, r) =>
      match evalAll ev s1 rest with
      | none => none
      | some (s2, rs) => some (s2, r :: rs)

/-- First error of the collected argument results. -/
def firstErr : List (Except String Value) → Option String
  | [] => none
  | .error e :: _ => some e
  | .ok _ :: rest => firstErr rest

/-- Unwrap the collected results (used only when `firstErr` found none). -/
def oks : List (Except String Value) → List Value
  | [] => []
  | .ok v :: rest => v :: oks rest
  | .error _ :: rest => oks rest

/-- The parameter-binding loop of the user-function path: evaluates each
argument (stopping at the first error) and immediately binds it as a local
under the parameter name, interleaved. -/
def bindParams (ev : State → Node → Res) :
    State → List String → List Node → Option (State × Option String)
  | s, p :: ps, a :: args =>
    match ev s a with
    | none => none
    | some (s1, .error e) => some (s1, some e)
    | some (s1, .ok v) => bindParams ev (s1.addLocal p v) ps args
  | s, _, _ => some (s, none)

/-- `preserved_locals`: the parameters that already had a local binding,
with their values, collected before any binding happens. -/
def collectPreserved (locals : Table Value) (params : List String) : Table Value :=
  params.foldl
    (fun acc p =>
      match tget locals p with
      | some v => tset acc p v
      | none => acc)
    []

/-- The restore loop after a user-function body succeeds: re-add each
preserved shadowed local, remove the others. -/
def restoreParams (s : State) (params : List String) (preserved : Table Value) : State :=
  params.foldl
    (fun st p =>
      match tget preserved p with
      | some v => st.addLocal p v
      | none => st.removeLocal p)
    s

/-- The names a Tree node undoes at its end: those introduced by a
Variable- or FunctionDeclaration directly in the block. -/
def declName : Node → List String
  | .variableDeclaration n _ => [n]
  | .functionDeclaration n _ _ => [n]
  | _ => []

/-- The body of the Tree arm: evaluate every node in order (first error
aborts), remember declaration names, and at the end remove each of them
from `locals` (only), returning the last value. -/
def treeRun (ev : State → Node → Res) :
    State → List Node → List String → Value → Res
  | s, [], acc, last => some (acc.foldl State.removeLocal s, .ok last)
  | s, n :: rest, acc, _ =>
    match ev s n with
    | none => none
    | some (s1, .error e) => some (s1, .error e)
    | some (s1, .ok v) => treeRun ev s1 rest (acc ++ declName n) v

/-- The per-target loop of the Assignment arm: mutations before the first
illegal target persist, exactly as in the source. -/
def assignLoop : State → List String → Value → State × Option String
  | s, [], _ => (s, none)
  | s, id :: rest, v =>
    if s.hasLocal id = false ∧ s.hasGlobal id = false then
      (s, some ("use of undefined variable: " ++ id))
    else if s.in_function = true ∧ s.hasGlobal id = true ∧ s.hasLocal id = false then
      (s, some ("attempted to affect external variable " ++ id ++ " from within a function"))
    else
      assignLoop (s.addLocal id v) rest v

/-- The ascending `while x < second` loop of the Loop arm, including the
final snap-to-the-second-bound iteration; own fuel per iteration. -/
def loopAsc (ev : State → Node → Res) :
    Nat → State → String → ℚ → ℚ → ℚ → Node → Value → Res
  | 0, _, _, _, _, _, _, _ => none
  | f + 1, s, param, x, second, step, body, sum =>
    if x < second then
      let s1 := s.addLocal param (Value.real x)
      match ev s1 body with
      | none => none
      | some (s2, .error e) => some (s2, .error e)
      | some (s2, .ok bv) =>
        match valueAdd sum bv with
        | .error e => some (s2, .error e)
        | .ok sum2 =>
          if x + step < second then
            loopAsc ev f s2 param (x + step) second step body sum2
          else
            let s3 := s2.addLocal param (Value.real second)
            match ev s3 body with
            | none => none
            | some (s4, .error e) => some (s4, .error e)
            | some (s4, .ok bv2) =>
              match valueAdd sum2 bv2 with
              | .error e => some (s4, .error e)
              | .ok sum3 => some (s4, .ok sum3)
    else some (s, .ok sum)

/-- The descending `while x > second` loop of the Loop arm (stepping by
`x - step`), symmetric to `loopAsc`. -/
def loopDesc (ev : State → Node → Res) :
    Nat → State → String → ℚ → ℚ → ℚ → Node → Value → Res
  | 0, _, _, _, _, _, _, _ => none
  | f + 1, s, param, x, second, step, body, sum =>
    if x > second then
      let s1 := s.addLocal param (Value.real x)
      match ev s1 body with
      | none => none
      | some (s2, .error e) => some (s2, .error e)
      | some (s2, .ok bv) =>
        match valueAdd sum bv with
        | .error e => some (s2, .error e)
        | .ok sum2 =>
          if x - step > second then
            loopDesc ev f s2 param (x - step) second step body sum2
          else
            let s3 := s2.addLocal param (Value.real second)
            match ev s3 body with
            | none => none
            | some (s4, .error e) => some (s4, .error e)
            | some (s4, .ok bv2) =>
              match valueAdd sum2 bv2 with
              | .error e => some (s4, .error e)
              | .ok sum3 => some (s4, .ok sum3)
    else some (s, .ok sum)

/-- One step of `RuntimeState::evaluate`, with `ev` the evaluation of
sub-nodes at the remaining fuel; a line-by-line translation of the big
match in runtime.rs. -/
def evalStep (O : Ops) (fuel : Nat) (ev : State → Node → Res) (s : State) : Node → Res
  | .number num im =>
    some (s, .ok (if im then Value.imaginary num else Value.real num))
  | .identifier id =>
    match tget s.locals id with
    | some v => some (s, .ok v)
    | none =>
      match tget s.globals id with
      | some v => some (s, .ok v)
      | none => some (s, .error ("unknown variable: " ++ id))
  | .operation l op r =>
    match ev s l with
    | none => none
    | some (s1, .error e) => some (s1, .error e)
    | some (s1, .ok lv) =>
      match ev s1 r with
      | none => none
      | some (s2, .error e) => some (s2, .error e)
      | some (s2, .ok rv) => some (s2, applyOp O op lv rv)
  | .functionCall name args =>
    if s.hasFunction name = false then
      some (s, .error ("unknown function: " ++ name))
    else
      let s0 : State := { s with in_function := true }
      if isBuiltin name then
        if args.length ≠ builtinParamCount name then
          some (s0, .error (name ++ " expects " ++ toString (builtinParamCount name)
            ++ " parameters, but only " ++ toString args.length ++ " were supplied"))
        else
          match evalAll ev s0 args with
          | none => none
          | some (s1, results) =>
            match firstErr results with
            | some e => some (s1, .error e)
            | none => some (s1, builtinRun O name (oks results))
      else
        match tget s0.functions name with
        | some (.functionDeclaration _ params body) =>
          if args.length ≠ params.length then
            some (s0, .error (name ++ " expects " ++ toString params.length
              ++ " parameters, but only " ++ toString args.length ++ " were supplied"))
          else
            let preserved := collectPreserved s0.locals params
            match bindParams ev s0 params args with
            | none => none
            | some (s1, some e) => some (s1, .error e)
            | some (s1, none) =>
              match ev s1 body with
              | none => none
              | some (s2, .error e) => some (s2, .error e)
              | some (s2, .ok result) =>
                let s3 := restoreParams s2 params preserved
                some ({ s3 with in_function := false }, .ok result)
        | _ => some (s0, .error "unreachable")
  | .conditional p tbr fbr =>
    match ev s p with
    | none => none
    | some (s1, .error e) => some (s1, .error e)
    | some (s1, .ok pv) =>
      match pv.expectReal "a predicate to a conditional expression must be a number" with
      | .error e => some (s1, .error e)
      | .ok q => if q ≠ 0 then ev s1 tbr else ev s1 fbr
  | .functionDeclaration name params body =>
    if s.hasFunction name then
      some (s, .error ("redeclared a function that already is defined: " ++ name))
    else
      some (s.addFunction name (.functionDeclaration name params body),
        .ok (Value.real 0))
  | .variableDeclaration name expr =>
    if s.hasGlobal name || s.hasLocal name then
      some (s, .error ("you cannot redeclare a variable: " ++ name))
    else
      match ev s expr with
      | none => none
      | some (s1, .error e) => some (s1, .error e)
      | some (s1, .ok v) =>
        if s1.in_function then some (s1.addLocal name v, .ok (Value.real 0))
        else some (s1.addGlobal name v, .ok (Value.real 0))
  | .loop param rng body =>
    match rng with
    | .range firstN secondN stepN =>
      match ev s firstN with
      | none => none
      | some (s1, .error e) => some (s1, .error e)
      | some (s1, .ok fv) =>
        match fv.expectReal "the first bound must be a real number" with
        | .error e => some (s1, .error e)
        | .ok a =>
          match ev s1 secondN with
          | none => none
          | some (s2, .error e) => some (s2, .error e)
          | some (s2, .ok sv) =>
            match sv.expectReal "the second bound must be a real number" with
            | .error e => some (s2, .error e)
            | .ok b =>
              match ev s2 stepN with
              | none => none
              | some (s3, .error e) => some (s3, .error e)
              | some (s3, .ok stv) =>
                match stv.expectReal "the step must be a number" with
                | .error e => some (s3, .error e)
                | .ok st =>
                  if st = 0 then some (s3, .error "a step cannot be 0")
                  else
                    let preserved := tget s3.locals param
                    match
                      (if a < b then loopAsc ev fuel s3 param a b st body (Value.real 0)
                       else loopDesc ev fuel s3 param a b st body (Value.real 0)) with
                    | none => none
                    | some (s4, .error e) => some (s4, .error e)
                    | some (s4, .ok sum) =>
                      let s5 := match preserved with
                        | some v => s4.addLocal param v
                        | none => s4
                      some (s5, .ok sum)
    | _ => some (s, .error "unreachable")
  | .assignment ids expr =>
    match ev s expr with
    | none => none
    | some (s1, .error e) => some (s1, .error e)
    | some (s1, .ok v) =>
      match assignLoop s1 ids v with
      | (s2, some e) => some (s2, .error e)
      | (s2, none) => some (s2, .ok v)
  | .factorial expr =>
    match ev s expr with
    | none => none
    | some (s1, .error e) => some (s1, .error e)
    | some (s1, .ok v) =>
      match factorialValue O fuel v with
      | none => none
      | some r => some (s1, r)
  | .tree nodes =>
    match nodes with
    | [] => some (s, .ok (Value.real 0))
    | _ =>
      match nodes.getLast? with
      | some (.variableDeclaration _ _) => some (s, .error "a tree must end with an expression")
      | some (.functionDeclaration _ _ _) => some (s, .error "a tree must end with an expression")
      | _ => treeRun ev s nodes [] (Value.real 0)
  | .arrayLit exprs =>
    match evalSeq ev s exprs with
    | none => none
    | some (s1, .error e) => some (s1, .error e)
    | some (s1, .ok vs) => some (s1, .ok (.array vs))
  | .indexAccess arrE idxE =>
    match ev s arrE with
    | none => none
    | some (s1, .error e) => some (s1, .error e)
    | some (s1, .ok av) =>
      match av.expectArray "cannot index a non-array" with
      | .error e => some (s1, .error e)
      | .ok arr =>
        match ev s1 idxE with
        | none => none
        | some (s2, .error e) => some (s2, .error e)
        | some (s2, .ok iv) =>
          match iv.expectReal "tried to index using non-number" with
          | .error e => some (s2, .error e)
          | .ok idx =>
            if idx.den ≠ 1 then
              some (s2, .error "cannot index arrays with non-integers")
            else if arr.length ≤ idx.num.toNat ∨ idx < 0 then
              some (s2, .error ("attempted to index array of length "
                ++ toString arr.length ++ " with index " ++ toString idx))
            else
              some (s2, .ok (arr.getD idx.num.toNat (Value.real 0)))
  | .range _ _ _ => some (s, .error "unreachable")

/-- `RuntimeState::evaluate`, as a fuel-indexed function: each recursion
level spends one unit; `none` means the fuel ran out, never a program
outcome. -/
def evaluate (O : Ops) : Nat → State → Node → Res
  | 0, _, _ => none
  | f + 1, s, n => evalStep O f (evaluate O f) s n

/-- The state `execute` builds before evaluating the root: default globals
`pi` and `e`, empty locals and functions, `in_function = false`. -/
def initState (O : Ops) : State :=
  { globals := [("pi", Value.real O.pival), ("e", Value.real O.euler)],
    locals := [],
    functions := [],
    in_function := false }

/-- A concrete instantiation of the abstract host functions, used to run
the model on closed inputs (any instantiation works for the quantified
theorems; witnesses fix this one). -/
def dummyOps : Ops :=
  { pival := 3
    euler := 2
    csin := fun c => c
    ccos := fun c => c
    ctan := fun c => c
    cln := fun c => c
    clog10 := fun c => c
    clogn := fun _ c => c
    cexp := fun _ => CQ.ofQ 1
    csqrt := fun c => c
    cpow := fun _ _ => CQ.ofQ 1
    crem := fun c _ => c
    cnorm := fun c => c.re
    rpow := fun x _ => x
    elapsed := 0
    vsize := 32 }

/-- The sequence of values the ascending loop binds the loop variable to:
the pure trace of `loopAsc`'s iteration logic (guard `x < second`, advance
by `step`, snap to `second` when `x + step` would not stay below it). -/
def ascVisits : Nat → ℚ → ℚ → ℚ → Option (List ℚ)
  | 0, _, _, _ => none
  | f + 1, x, second, step =>
    if x < second then
      if x + step < second then
        match ascVisits f (x + step) second step with
        | none => none
        | some l => some (x :: l)
      else some [x, second]
    else some []

/-- The value trace of the descending loop (`loopDesc`), guard
`x > second`, advance by `-step`. -/
def descVisits : Nat → ℚ → ℚ → ℚ → Option (List ℚ)
  | 0, _, _, _ => none
  | f + 1, x, second, step =>
    if x > second then
      if x - step > second then
        match descVisits f (x - step) second step with
        | none => none
        | some l => some (x :: l)
      else some [x, second]
    else some []

mutual

/-- A syntax tree with no `FunctionCall` node anywhere (so its evaluation
performs no function call, builtin or user-defined). -/
def noFC : Node → Bool
  | .number _ _ => true
  | .identifier _ => true
  | .operation l _ r => noFC l && noFC r
  | .functionCall _ _ => false
  | .functionDeclaration _ _ body => noFC body
  | .variableDeclaration _ e => noFC e
  | .conditional p tbr fbr => noFC p && noFC tbr && noFC fbr
  | .loop _ rng body => noFC rng && noFC body
  | .assignment _ e => noFC e
  | .factorial e => noFC e
  | .tree ns => noFCList ns
  | .arrayLit ns => noFCList ns
  | .indexAccess a i => noFC a && noFC i
  | .range a b c => noFC a && noFC b && noFC c

/-- `noFC` on every node of a list. -/
def noFCList : List Node → Bool
  | [] => true
  | n :: rest => noFC n && noFCList rest

end

/-- An evaluation function leaves `in_function` unchanged on every node
that contains no function call. -/
def PreservesFlag (ev : State → Node → Res) : Prop :=
  ∀ s n s' r, noFC n = true → ev s n = some (s', r) → s'.in_function = s.in_function

/-! Basic unfolding lemmas. -/

@[simp] theorem CQ.add_def (a b : CQ) : a + b = ⟨a.re + b.re, a.im + b.im⟩ := rfl

@[simp] theorem CQ.sub_def (a b : CQ) : a - b = ⟨a.re - b.re, a.im - b.im⟩ := rfl

@[simp] theorem CQ.mul_def (a b : CQ) :
    a * b = ⟨a.re * b.re - a.im * b.im, a.re * b.im + a.im * b.re⟩ := rfl

@[simp] theorem CQ.div_def (a b : CQ) :
    a / b = ⟨(a.re * b.re + a.im * b.im) / (b.re * b.re + b.im * b.im),
             (a.im * b.re - a.re * b.im) / (b.re * b.re + b.im * b.im)⟩ := rfl

@[simp] theorem CQ.neg_def (a : CQ) : -a = ⟨-a.re, -a.im⟩ := rfl

@[simp] theorem CQ.ofQ_def (q : ℚ) : CQ.ofQ q = ⟨q, 0⟩ := rfl

@[simp] theorem State.addLocal_locals (s : State) (n : String) (v : Value) :
    (s.addLocal n v).locals = tset s.locals n v := rfl

@[simp] theorem State.addLocal_globals (s : State) (n : String) (v : Value) :
    (s.addLocal n v).globals = s.globals := rfl

@[simp] theorem State.addLocal_functions (s : State) (n : String) (v : Value) :
    (s.addLocal n v).functions = s.functions := rfl

@[simp] theorem State.addLocal_in_function (s : State) (n : String) (v : Value) :
    (s.addLocal n v).in_function = s.in_function := rfl

@[simp] theorem State.addGlobal_globals (s : State) (n : String) (v : Value) :
    (s.addGlobal n v).globals = tset s.globals n v := rfl

@[simp] theorem State.addGlobal_locals (s : State) (n : String) (v : Value) :
    (s.addGlobal n v).locals = s.locals := rfl

@[simp] theorem State.addGlobal_in_function (s : State) (n : String) (v : Value) :
    (s.addGlobal n v).in_function = s.in_function := rfl

@[simp] theorem State.removeLocal_locals (s : State) (n : String) :
    (s.removeLocal n).locals = tdel s.locals n := rfl

@[simp] theorem State.removeLocal_globals (s : State) (n : String) :
    (s.removeLocal n).globals = s.globals := rfl

@[simp] theorem State.removeLocal_in_function (s : State) (n : String) :
    (s.removeLocal n).in_function = s.in_function := rfl

@[simp] theorem State.addFunction_in_function (s : State) (n : String) (b : Node) :
    (s.addFunction n b).in_function = s.in_function := rfl

@[simp] theorem State.addFunction_locals (s : State) (n : String) (b : Node) :
    (s.addFunction n b).locals = s.locals := rfl

@[simp] theorem State.addFunction_globals (s : State) (n : String) (b : Node) :
    (s.addFunction n b).globals = s.globals := rfl

theorem tget_tset_self {α : Type} (t : Table α) (k : String) (v : α) :
    tget (tset t k v) k = some v := by
  induction t with
  | nil => simp [tset, tget]
  | cons p rest ih =>
    by_cases h : p.1 = k
    · simp [tset, tget, h]
    · simpa [tset, tget, h] using ih

theorem tget_tset_ne {α : Type} (t : Table α) (k k' : String) (v : α) (h : k' ≠ k) :
    tget (tset t k v) k' = tget t k' := by
  induction t with
  | nil => simp [tset, tget, Ne.symm h]
  | cons p rest ih =>
    by_cases hp : p.1 = k
    · simp [tset, tget, hp, h, Ne.symm h]
    · simp only [tset, hp, if_false, tget]
      by_cases hp' : p.1 = k'
      · simp [hp']
      · simpa [hp'] using ih

theorem tset_tset {α : Type} (t : Table α) (k : String) (v w : α) :
    tset (tset t k v) k w = tset t k w := by
  induction t with
  | nil => simp [tset]
  | cons p rest ih =>
    by_cases h : p.1 = k
    · simp [tset, h]
    · simp [tset, h, ih]

theorem addLocal_addLocal (s : State) (n : String) (v w : Value) :
    (s.addLocal n v).addLocal n w = s.addLocal n w := by
  cases s
  simp [State.addLocal, tset_tset]

/-- C5: the `+` operator on any pair involving an Array appends one
operand as a single new trailing element of the array rather than
concatenating: `Number + Array` and `Vector + Array` push the left
operand onto the right array, `Array + anything` (including
`Array + Array`) pushes the right operand onto the left array, and
`Array([1,2]) + Array([3,4]) = Array([1,2,[3,4]])`. -/
theorem C5_array_append :
    (∀ (c : CQ) (arr : List Value),
      valueAdd (.number c) (.array arr) = .ok (.array (arr ++ [.number c]))) ∧
    (∀ (x y : ℚ) (arr : List Value),
      valueAdd (.vector x y) (.array arr) = .ok (.array (arr ++ [.vector x y]))) ∧
    (∀ (arr : List Value) (v : Value),
      valueAdd (.array arr) v = .ok (.array (arr ++ [v]))) ∧
    valueAdd (.array [Value.real 1, Value.real 2]) (.array [Value.real 3, Value.real 4])
      = .ok (.array [Value.real 1, Value.real 2, .array [Value.real 3, Value.real 4]]) := by
  refine ⟨fun c arr => rfl, fun x y arr => rfl, fun arr v => ?_, rfl⟩
  cases v <;> rfl

/-- C6: `==` (`Value::equals`) is total and returns `Number(1)` or
`Number(0)`; every cross-kind pair compares to `Number(0)`; and any two
arrays — in particular an array and itself — compare to `Number(0)`
regardless of contents. -/
theorem C6_equality_quirks :
    (∀ a b : Value, a.equals b = Value.real 1 ∨ a.equals b = Value.real 0) ∧
    (∀ (c : CQ) (x y : ℚ), (Value.number c).equals (.vector x y) = Value.real 0) ∧
    (∀ (c : CQ) (l : List Value), (Value.number c).equals (.array l) = Value.real 0) ∧
    (∀ (x y : ℚ) (c : CQ), (Value.vector x y).equals (.number c) = Value.real 0) ∧
    (∀ (x y : ℚ) (l : List Value), (Value.vector x y).equals (.array l) = Value.real 0) ∧
    (∀ (l : List Value) (b : Value), (Value.array l).equals b = Value.real 0) ∧
    (∀ l : List Value, (Value.array l).equals (.array l) = Value.real 0) := by
  refine ⟨?_, fun c x y => rfl, fun c l => rfl, fun x y c => rfl, fun x y l => rfl,
    ?_, fun l => rfl⟩
  · intro a b
    unfold Value.equals
    split
    · exact Or.inl rfl
    · exact Or.inr rfl
  · intro l b
    cases b <;> rfl

/-- C7: `Number ^ Number` returns `Number(0)` whenever the base is exactly
(0,0) — including `0^0` — returns `Number(1)` whenever the base is not
(0,0) and the exponent is exactly (0,0), and uses the complex power
function in every other Number-Number case. -/
theorem C7_pow_special_cases (O : Ops) (a b : CQ) :
    valuePow O (.number a) (.number b)
      = .ok (if a = ⟨0, 0⟩ then Value.real 0
             else if b = ⟨0, 0⟩ then Value.real 1
             else .number (O.cpow a b)) := by
  obtain ⟨ar, ai⟩ := a
  obtain ⟨br, bi⟩ := b
  simp only [valuePow, CQ.mk.injEq]
  by_cases ha : ai = 0 ∧ ar = 0
  · simp [ha.1, ha.2]
  · have h1 : ¬(ar = 0 ∧ ai = 0) := fun h => ha ⟨h.2, h.1⟩
    by_cases hb : bi = 0 ∧ br = 0
    · simp [hb.1, hb.2, ha, h1]
    · have h2 : ¬(br = 0 ∧ bi = 0) := fun h => hb ⟨h.2, h.1⟩
      simp [ha, hb, h1, h2]

theorem factorialValue_posInt (O : Ops) (fuel : Nat) (n : ℕ) (hn : 0 < n) :
    factorialValue O fuel (Value.real (n : ℚ))
      = some (.ok (Value.real ((factAcc (castI64 ((n : ℕ) : ℚ)) : ℤ) : ℚ))) := by
  have hpos : (0 : ℚ) < (n : ℚ) := by exact_mod_cast hn
  have hden : ((n : ℚ)).den = 1 := Rat.den_natCast n
  simp [factorialValue, Value.real, Value.expectComplex, hpos, hden]

theorem castI64_natCast (n : ℕ) (h : (n : ℤ) ≤ 9223372036854775807) :
    castI64 ((n : ℕ) : ℚ) = (n : ℤ) := by
  have h0 : (-9223372036854775808 : ℤ) ≤ (n : ℤ) :=
    le_trans (by norm_num) (Int.natCast_nonneg n)
  simp [castI64, Rat.num_natCast, Rat.den_natCast, Int.tdiv_one, min_eq_right h,
    max_eq_right h0]

theorem factAcc_small (n : ℕ) (h1 : 1 ≤ n) (h2 : n ≤ 20) :
    factAcc (n : ℤ) = (Nat.factorial n : ℤ) := by
  interval_cases n <;> decide

/-- C8 (amended): factorial of an evaluated operand that is a real,
positive, integer-valued Number is the product `n*(n-1)*...*2` computed
in a wrapping 64-bit signed integer accumulator and cast back to a real
Number — equal to the exact `n!` for every `n ≤ 20`, where the product
fits in `i64` (so factorial(5) = 120), but wrapped modulo 2^64 once the
product overflows (see the counterexample at n = 21); an operand of
exactly 0 returns `Number(1)`; every other Number operand is routed
through `gamma(z+1)`; and a non-Number operand fails with the factorial
type error. -/
theorem C8_factorial (O : Ops) (fuel : Nat) :
    (∀ n : ℕ, 0 < n →
      factorialValue O fuel (Value.real (n : ℚ))
        = some (.ok (Value.real ((factAcc (castI64 ((n : ℕ) : ℚ)) : ℤ) : ℚ)))) ∧
    (∀ n : ℕ, 0 < n → n ≤ 20 →
      factorialValue O fuel (Value.real (n : ℚ))
        = some (.ok (Value.real ((Nat.factorial n : ℕ) : ℚ)))) ∧
    factorialValue O fuel (Value.real 0) = some (.ok (Value.real 1)) ∧
    (∀ c : CQ, ¬(c.im = 0 ∧ 0 < c.re ∧ c.re.den = 1) → ¬(c.re = 0 ∧ c.im = 0) →
      factorialValue O fuel (.number c) = gammaValue O fuel (.number (c + CQ.ofQ 1))) ∧
    (∀ x y : ℚ, factorialValue O fuel (.vector x y)
      = some (.error "attempted to find factorial of non-number")) ∧
    (∀ l : List Value, factorialValue O fuel (.array l)
      = some (.error "attempted to find factorial of non-number")) := by
  refine ⟨fun n hn => factorialValue_posInt O fuel n hn, ?_, ?_, ?_,
    fun x y => rfl, fun l => rfl⟩
  · intro n h1 h2
    rw [factorialValue_posInt O fuel n h1]
    have hle : (n : ℤ) ≤ 9223372036854775807 := by
      have h20 : (n : ℤ) ≤ (20 : ℤ) := by exact_mod_cast h2
      omega
    rw [castI64_natCast n hle, factAcc_small n h1 h2]
    simp
  · simp [factorialValue, Value.real, Value.expectComplex]
  · intro c h1 h2
    simp only [factorialValue, Value.expectComplex]
    rw [if_neg h1, if_neg h2]

/-- Witness for C8 at the spec's own test values: `factorial(5) = 120`. -/
theorem C8_factorial_witness :
    factorialValue dummyOps 1 (Value.real 5) = some (.ok (Value.real 120)) := by
  have h := (C8_factorial dummyOps 1).2.1 5 (by norm_num) (by norm_num)
  norm_num [Nat.factorial] at h
  exact h

/-- C8 counterexample: the "exact product" fails once the `i64`
accumulator overflows.  At n = 21 the product 21! exceeds 2^63 - 1; the
code's wrapping accumulator produces -4249290049419214848 (the signed
representative of 21! mod 2^64), not the exact factorial
51090942171709440000. -/
theorem C8_overflow_counterexample :
    factorialValue dummyOps 1 (Value.real ((21 : ℕ) : ℚ))
      = some (.ok (Value.real ((-4249290049419214848 : ℤ) : ℚ))) ∧
    ((-4249290049419214848 : ℤ) : ℚ) ≠ ((Nat.factorial 21 : ℕ) : ℚ) := by
  constructor
  · rw [factorialValue_posInt dummyOps 1 21 (by norm_num),
      castI64_natCast 21 (by norm_num)]
    have hf : factAcc ((21 : ℕ) : ℤ) = (-4249290049419214848 : ℤ) := by decide
    rw [hf]
  · norm_num [Nat.factorial]

/-- C2: what `Value::gamma` actually computes.  On a Number with real part
below 0.5 the code recurses with gamma applied to the **whole quotient**
`pi / (sin(pi*c) * (1 - c))` — not `pi / (sin(pi*c) * gamma(1 - c))` as
the claim (the reflection identity) states; the concrete conjuncts show
the code's recursion never reaching the Lanczos branch at `z = -1/2`
(with the abstract host functions instantiated by `dummyOps`), while the
claimed reflection computation (`gammaSpecValue`) terminates there.  For
real part at least 0.5 the fixed Lanczos evaluation is returned, and any
non-Number operand fails, as the claim states. -/
theorem C2_gamma_reflection_bug :
    (∀ (O : Ops) (f : Nat) (c : CQ),
      gammaValue O (f + 1) (.number c)
        = if c.re < 0.5 then
            gammaValue O f (.number
              (CQ.ofQ O.pival / (O.csin (CQ.ofQ O.pival * c) * (CQ.ofQ 1 - c))))
          else some (.ok (.number (lanczos O c)))) ∧
    gammaValue dummyOps 6 (.number ⟨-1/2, 0⟩) = none ∧
    gammaSpecValue dummyOps 6 (.number ⟨-1/2, 0⟩) ≠ none ∧
    (∀ (O : Ops) (f : Nat) (x y : ℚ),
      gammaValue O (f + 1) (.vector x y)
        = some (.error "cannot calculate gamma for non-number")) ∧
    (∀ (O : Ops) (f : Nat) (l : List Value),
      gammaValue O (f + 1) (.array l)
        = some (.error "cannot calculate gamma for non-number")) := by
  refine ⟨fun O f c => rfl, ?_, ?_, fun O f x y => rfl, fun O f l => rfl⟩
  · norm_num [gammaValue, Value.expectComplex, dummyOps]
  · norm_num [gammaSpecValue, lanczos, lanczosP, Value.expectComplex, dummyOps,
      List.range_succ]
    exact Option.some_ne_none _

theorem hasLocal_addLocal_self (s : State) (n : String) (v : Value) :
    (s.addLocal n v).hasLocal n = true := by
  simp [State.hasLocal, tget_tset_self]

theorem hasLocal_addLocal_ne (s : State) (n k : String) (v : Value) (h : k ≠ n) :
    (s.addLocal n v).hasLocal k = s.hasLocal k := by
  simp [State.hasLocal, tget_tset_ne _ _ _ _ h]

theorem hasGlobal_addLocal (s : State) (n k : String) (v : Value) :
    (s.addLocal n v).hasGlobal k = s.hasGlobal k := rfl

theorem assignLoop_all_legal (v : Value) :
    ∀ (ids : List String) (s : State),
      (∀ id ∈ ids, (s.hasLocal id = true ∨ s.hasGlobal id = true) ∧
        ¬(s.in_function = true ∧ s.hasGlobal id = true ∧ s.hasLocal id = false)) →
      assignLoop s ids v = (ids.foldl (fun st id => st.addLocal id v) s, none)
  | [], s, _ => rfl
  | id :: rest, s, h => by
    have h1 := h id (List.mem_cons_self id rest)
    have hnot1 : ¬(s.hasLocal id = false ∧ s.hasGlobal id = false) := by
      rcases h1.1 with hl | hg
      · exact fun hc => by rw [hl] at hc; cases hc.1
      · exact fun hc => by rw [hg] at hc; cases hc.2
    simp only [assignLoop, if_neg hnot1, if_neg h1.2, List.foldl_cons]
    refine assignLoop_all_legal v rest (s.addLocal id v) ?_
    intro id' hid'
    have h2 := h id' (List.mem_cons_of_mem id hid')
    by_cases he : id' = id
    · subst he
      refine ⟨Or.inl (hasLocal_addLocal_self s id' v), ?_⟩
      rintro ⟨-, -, hl⟩
      rw [hasLocal_addLocal_self s id' v] at hl
      cases hl
    · rw [hasLocal_addLocal_ne s id id' v he, hasGlobal_addLocal s id id' v]
      exact ⟨h2.1, fun hc => h2.2 ⟨hc.1, hc.2.1, hc.2.2⟩⟩

theorem foldl_addLocal_globals (v : Value) :
    ∀ (ids : List String) (s : State),
      (ids.foldl (fun st id => st.addLocal id v) s).globals = s.globals
  | [], _ => rfl
  | id :: rest, s => by
    simp only [List.foldl_cons]
    rw [foldl_addLocal_globals v rest (s.addLocal id v)]
    rfl

theorem foldl_addLocal_tget_not_mem (v : Value) :
    ∀ (ids : List String) (s : State) (id : String), id ∉ ids →
      tget (ids.foldl (fun st id => st.addLocal id v) s).locals id = tget s.locals id
  | [], _, _, _ => rfl
  | a :: rest, s, id, h => by
    simp only [List.foldl_cons]
    rw [foldl_addLocal_tget_not_mem v rest (s.addLocal a v) id
      (fun hm => h (List.mem_cons_of_mem a hm))]
    exact tget_tset_ne s.locals a id v (fun he => h (he ▸ List.mem_cons_self a rest))

theorem foldl_addLocal_tget_mem (v : Value) :
    ∀ (ids : List String) (s : State) (id : String), id ∈ ids →
      tget (ids.foldl (fun st id => st.addLocal id v) s).locals id = some v
  | [], _, _, h => absurd h (List.not_mem_nil _)
  | a :: rest, s, id, h => by
    simp only [List.foldl_cons]
    by_cases hid : id ∈ rest
    · exact foldl_addLocal_tget_mem v rest (s.addLocal a v) id hid
    · have he : id = a := by
        rcases List.mem_cons.mp h with h1 | h2
        · exact h1
        · exact absurd h2 hid
      subst he
      rw [foldl_addLocal_tget_not_mem v rest (s.addLocal id v) id hid]
      simp [tget_tset_self]

/-- C4 (amended): for an Assignment node whose right-hand side evaluates
to `v` in state `s1`: a single target that exists in neither table fails
with the unknown-variable error; a single target that is a global but not
a local while `in_function` fails with the external-mutation error;
otherwise (every target legal) `v` is written into `locals` under every
target name — never into `globals`, which are unchanged — the assigned
value is returned, and an immediate subsequent read of any target yields
`v`.  (New-value visibility holds only while the created local binding
survives; C4's counterexample shows a later read observing the old global
after block cleanup removes the local.) -/
theorem C4_assignment (O : Ops) (f : Nat) (s s1 : State) (e : Node) (v : Value)
    (he : evaluate O f s e = some (s1, .ok v)) :
    (∀ id : String, s1.hasLocal id = false → s1.hasGlobal id = false →
      evaluate O (f + 1) s (.assignment [id] e)
        = some (s1, .error ("use of undefined variable: " ++ id))) ∧
    (∀ id : String, s1.in_function = true → s1.hasGlobal id = true → s1.hasLocal id = false →
      evaluate O (f + 1) s (.assignment [id] e)
        = some (s1, .error ("attempted to affect external variable " ++ id
            ++ " from within a function"))) ∧
    (∀ ids : List String,
      (∀ id ∈ ids, (s1.hasLocal id = true ∨ s1.hasGlobal id = true) ∧
        ¬(s1.in_function = true ∧ s1.hasGlobal id = true ∧ s1.hasLocal id = false)) →
      evaluate O (f + 1) s (.assignment ids e)
        = some (ids.foldl (fun st id => st.addLocal id v) s1, .ok v) ∧
      (ids.foldl (fun st id => st.addLocal id v) s1).globals = s1.globals ∧
      (∀ id ∈ ids, ∀ g : Nat,
        evaluate O (g + 1) (ids.foldl (fun st id => st.addLocal id v) s1) (.identifier id)
          = some (ids.foldl (fun st id => st.addLocal id v) s1, .ok v))) := by
  refine ⟨?_, ?_, ?_⟩
  · intro id hl hg
    simp only [evaluate, evalStep, he, assignLoop]
    simp [hl, hg]
  · intro id hf hg hl
    simp only [evaluate, evalStep, he, assignLoop]
    simp [hf, hg, hl]
  · intro ids hleg
    refine ⟨?_, foldl_addLocal_globals v ids s1, ?_⟩
    · simp only [evaluate, evalStep, he, assignLoop_all_legal v ids s1 hleg]
    · intro id hid g
      simp only [evaluate, evalStep, foldl_addLocal_tget_mem v ids s1 id hid]

/-- Witness for C4: at top level (not `in_function`), assigning `7` to the
declared global `a` succeeds, writes the value into `locals` (not
`globals`), and returns the assigned value. -/
theorem C4_assignment_witness :
    evaluate dummyOps 2
        { globals := [("a", Value.real 1)], locals := [], functions := [], in_function := false }
        (.assignment ["a"] (.number 7 false))
      = some ({ globals := [("a", Value.real 1)], locals := [("a", Value.real 7)],
                functions := [], in_function := false }, .ok (Value.real 7)) := by
  have h := ((C4_assignment dummyOps 1
      { globals := [("a", Value.real 1)], locals := [], functions := [], in_function := false }
      { globals := [("a", Value.real 1)], locals := [], functions := [], in_function := false }
      (.number 7 false) (Value.real 7) rfl).2.2 ["a"]
      (by
        intro id hid
        rcases List.mem_cons.mp hid with h1 | h2
        · subst h1
          refine ⟨Or.inr rfl, ?_⟩
          rintro ⟨hc, -⟩
          cases hc
        · cases h2)).1
  simpa [State.addLocal, tset] using h

/-- C4 counterexample: the claim's "new value observed by every later read
of that name in the run" fails.  `w` is declared (a global, value 1) and
assigned 5 inside a block; the block's cleanup removes the assigned local,
so the read of `w` after the block yields the original 1, not the
assigned 5. -/
theorem C4_persistence_counterexample :
    evaluate dummyOps 6 (initState dummyOps)
        (.tree [.tree [.variableDeclaration "w" (.number 1 false),
                       .assignment ["w"] (.number 5 false),
                       .identifier "w"],
                .identifier "w"])
      = some ({ globals := [("pi", Value.real 3), ("e", Value.real 2), ("w", Value.real 1)],
                locals := [], functions := [], in_function := false },
              .ok (Value.real 1)) ∧
    Value.real 1 ≠ Value.real 5 := by
  refine ⟨rfl, ?_⟩
  norm_num [Value.real]

/-- C10 (amended): when a user-function body errors, the FunctionCall arm
returns the body's error with the state exactly as body evaluation left
it: no parameter binding is removed, no shadowed caller local is
restored, and `in_function` is not reset by the call arm — the restore
and reset steps run only on the success path.  (The body itself may have
changed these, e.g. a nested successful call resets the flag — see the
counterexample.) -/
theorem C10_call_error_no_cleanup (O : Ops) (f : Nat) (s s1 s2 : State)
    (name nm : String) (params : List String) (args : List Node) (body : Node) (m : String)
    (hnb : isBuiltin name = false)
    (hfn : tget s.functions name = some (.functionDeclaration nm params body))
    (hlen : args.length = params.length)
    (hbind : bindParams (evaluate O f) { s with in_function := true } params args
      = some (s1, none))
    (hbody : evaluate O f s1 body = some (s2, .error m)) :
    evaluate O (f + 1) s (.functionCall name args) = some (s2, .error m) := by
  have hhf : s.hasFunction name = true := by
    simp [State.hasFunction, hfn]
  simp only [evaluate, evalStep, hhf, hnb, hfn, hbind, hbody]
  simp [hlen]

/-- Witness for C10: calling `f(1)` with `f(p) = nope` (an unknown
identifier) errors, leaving the parameter binding `p = 1` in locals and
`in_function = true`. -/
theorem C10_call_error_no_cleanup_witness :
    evaluate dummyOps 3
        { globals := [], locals := [],
          functions := [("f", .functionDeclaration "f" ["p"] (.identifier "nope"))],
          in_function := false }
        (.functionCall "f" [.number 1 false])
      = some ({ globals := [], locals := [("p", Value.real 1)],
                functions := [("f", .functionDeclaration "f" ["p"] (.identifier "nope"))],
                in_function := true }, .error "unknown variable: nope") :=
  C10_call_error_no_cleanup dummyOps 2 _ _ _ "f" "f" ["p"] [.number 1 false]
    (.identifier "nope") "unknown variable: nope" rfl rfl rfl rfl rfl

/-- C10 counterexample: "in_function remains true" is not true of every
erroring call.  Here `f`'s body first calls `g` successfully (which
resets the flag to false) and then hits an unknown identifier; the
erroring call to `f` ends with `in_function = false`. -/
theorem C10_nested_call_flag_counterexample :
    evaluate dummyOps 6
        { globals := [], locals := [],
          functions := [("g", .functionDeclaration "g" [] (.number 1 false)),
                        ("f", .functionDeclaration "f" []
                          (.tree [.functionCall "g" [], .identifier "nope"]))],
          in_function := false }
        (.functionCall "f" [])
      = some ({ globals := [], locals := [],
                functions := [("g", .functionDeclaration "g" [] (.number 1 false)),
                              ("f", .functionDeclaration "f" []
                                (.tree [.functionCall "g" [], .identifier "nope"]))],
                in_function := false }, .error "unknown variable: nope") ∧
    ({ globals := [], locals := [],
       functions := [("g", .functionDeclaration "g" [] (.number 1 false)),
                     ("f", .functionDeclaration "f" []
                       (.tree [.functionCall "g" [], .identifier "nope"]))],
       in_function := false } : State)
      ≠ { globals := [], locals := [],
          functions := [("g", .functionDeclaration "g" [] (.number 1 false)),
                        ("f", .functionDeclaration "f" []
                          (.tree [.functionCall "g" [], .identifier "nope"]))],
          in_function := true } := by
  refine ⟨rfl, ?_⟩
  intro h
  cases h

theorem evaluate_identifier_state (O : Ops) (g : Nat) (s s' : State) (id : String)
    (r : Except String Value) (h : evaluate O g s (.identifier id) = some (s', r)) :
    s' = s := by
  cases g with
  | zero => cases h
  | succ g' =>
    simp only [evaluate, evalStep] at h
    rcases hl : tget s.locals id with - | w <;> simp only [hl] at h
    · rcases hg : tget s.globals id with - | w2 <;> simp only [hg] at h
      · cases h
        rfl
      · cases h
        rfl
    · cases h
      rfl

theorem loopAsc_param_binding (O : Ops) (g : Nat) (param : String) (b st : ℚ) (body : Node)
    (Hb : ∀ (w : Value) (s₁ s₂ : State) (rv : Value), tget s₁.locals param = some w →
      evaluate O g s₁ body = some (s₂, .ok rv) → tget s₂.locals param = some w) :
    ∀ (f : Nat) (s : State) (x : ℚ) (sum : Value) (s' : State) (v : Value),
      x < b →
      loopAsc (evaluate O g) f s param x b st body sum = some (s', .ok v) →
      tget s'.locals param = some (Value.real b)
  | 0, s, x, sum, s', v, hx, h => by cases h
  | f + 1, s, x, sum, s', v, hx, h => by
    simp only [loopAsc] at h
    rw [if_pos hx] at h
    rcases hbody : evaluate O g (s.addLocal param (Value.real x)) body with - | ⟨s2, r2⟩
    · simp only [hbody] at h
      cases h
    · simp only [hbody] at h
      cases r2 with
      | error e =>
        injection h with hp
        injection hp with h1 h2
        exact Except.noConfusion h2
      | ok bv =>
        rcases hadd : valueAdd sum bv with e | sum2 <;> simp only [hadd] at h
        · injection h with hp
          injection hp with h1 h2
          exact Except.noConfusion h2
        · by_cases hlt : x + st < b
          · rw [if_pos hlt] at h
            exact loopAsc_param_binding O g param b st body Hb f s2 (x + st) sum2 s' v hlt h
          · rw [if_neg hlt] at h
            rcases hbody2 : evaluate O g (s2.addLocal param (Value.real b)) body
              with - | ⟨s4, r4⟩
            · simp only [hbody2] at h
              cases h
            · simp only [hbody2] at h
              cases r4 with
              | error e =>
                injection h with hp
                injection hp with h1 h2
                exact Except.noConfusion h2
              | ok bv2 =>
                rcases hadd2 : valueAdd sum2 bv2 with e | sum3 <;> simp only [hadd2] at h
                · injection h with hp
                  injection hp with h1 h2
                  exact Except.noConfusion h2
                · injection h with hp
                  injection hp with h1 h2
                  exact h1 ▸ Hb (Value.real b) _ s4 bv2 (by simp [tget_tset_self]) hbody2

theorem loopDesc_param_binding (O : Ops) (g : Nat) (param : String) (b st : ℚ) (body : Node)
    (Hb : ∀ (w : Value) (s₁ s₂ : State) (rv : Value), tget s₁.locals param = some w →
      evaluate O g s₁ body = some (s₂, .ok rv) → tget s₂.locals param = some w) :
    ∀ (f : Nat) (s : State) (x : ℚ) (sum : Value) (s' : State) (v : Value),
      x > b →
      loopDesc (evaluate O g) f s param x b st body sum = some (s', .ok v) →
      tget s'.locals param = some (Value.real b)
  | 0, s, x, sum, s', v, hx, h => by cases h
  | f + 1, s, x, sum, s', v, hx, h => by
    simp only [loopDesc] at h
    rw [if_pos hx] at h
    rcases hbody : evaluate O g (s.addLocal param (Value.real x)) body with - | ⟨s2, r2⟩
    · simp only [hbody] at h
      cases h
    · simp only [hbody] at h
      cases r2 with
      | error e =>
        injection h with hp
        injection hp with h1 h2
        exact Except.noConfusion h2
      | ok bv =>
        rcases hadd : valueAdd sum bv with e | sum2 <;> simp only [hadd] at h
        · injection h with hp
          injection hp with h1 h2
          exact Except.noConfusion h2
        · by_cases hlt : x - st > b
          · rw [if_pos hlt] at h
            exact loopDesc_param_binding O g param b st body Hb f s2 (x - st) sum2 s' v hlt h
          · rw [if_neg hlt] at h
            rcases hbody2 : evaluate O g (s2.addLocal param (Value.real b)) body
              with - | ⟨s4, r4⟩
            · simp only [hbody2] at h
              cases h
            · simp only [hbody2] at h
              cases r4 with
              | error e =>
                injection h with hp
                injection hp with h1 h2
                exact Except.noConfusion h2
              | ok bv2 =>
                rcases hadd2 : valueAdd sum2 bv2 with e | sum3 <;> simp only [hadd2] at h
                · injection h with hp
                  injection hp with h1 h2
                  exact Except.noConfusion h2
                · injection h with hp
                  injection hp with h1 h2
                  exact h1 ▸ Hb (Value.real b) _ s4 bv2 (by simp [tget_tset_self]) hbody2

theorem evaluate_loop_literal (O : Ops) (g : Nat) (s : State) (param : String)
    (a b st : ℚ) (body : Node) :
    evaluate O (g + 2) s
        (.loop param (.range (.number a false) (.number b false) (.number st false)) body)
      = if st = 0 then some (s, .error "a step cannot be 0")
        else
          match (if a < b then loopAsc (evaluate O (g + 1)) (g + 1) s param a b st body
                    (Value.real 0)
                 else loopDesc (evaluate O (g + 1)) (g + 1) s param a b st body
                    (Value.real 0)) with
          | none => none
          | some (s4, .error e) => some (s4, .error e)
          | some (s4, .ok sum) =>
            some ((match tget s.locals param with
                   | some w => s4.addLocal param w
                   | none => s4), .ok sum) := rfl

/-- C9 (amended): after a Loop node whose two bounds differ (`a ≠ b`)
with step `st ≠ 0` finishes successfully, if no local binding for the
loop-variable name existed before the loop and the body preserves an
existing loop-variable binding whenever it succeeds, then the loop
variable remains bound in `locals` — to the second bound, its last
iteration value — rather than being removed, in both the ascending
(`a < b`) and the descending (`a > b`) direction: the loop only restores
a pre-existing binding, it never deletes the binding it created.  (A loop
with `a = b` runs zero iterations and creates no binding — see the
counterexample.) -/
theorem C9_loop_binding_persists (O : Ops) (g : Nat) (s s' : State) (param : String)
    (a b st : ℚ) (body : Node) (v : Value)
    (hpre : tget s.locals param = none)
    (hab : a ≠ b) (hst : st ≠ 0)
    (hbody : ∀ (w : Value) (s₁ s₂ : State) (rv : Value), tget s₁.locals param = some w →
      evaluate O (g + 1) s₁ body = some (s₂, .ok rv) → tget s₂.locals param = some w)
    (heval : evaluate O (g + 2) s
        (.loop param (.range (.number a false) (.number b false) (.number st false)) body)
      = some (s', .ok v)) :
    tget s'.locals param = some (Value.real b) := by
  rw [evaluate_loop_literal, if_neg hst] at heval
  by_cases hlt : a < b
  · rw [if_pos hlt] at heval
    rcases hloop : loopAsc (evaluate O (g + 1)) (g + 1) s param a b st body
        (Value.real 0) with - | ⟨s4, r4⟩
    · simp only [hloop] at heval
      cases heval
    · cases r4 with
      | error e =>
        simp only [hloop] at heval
        injection heval with hp
        injection hp with h1 h2
        exact Except.noConfusion h2
      | ok sum =>
        simp only [hloop, hpre] at heval
        injection heval with hp
        injection hp with h1 h2
        exact h1 ▸ loopAsc_param_binding O (g + 1) param b st body hbody (g + 1)
          s a (Value.real 0) s4 sum hlt hloop
  · rw [if_neg hlt] at heval
    have hgt : a > b := lt_of_le_of_ne (not_lt.mp hlt) (Ne.symm hab)
    rcases hloop : loopDesc (evaluate O (g + 1)) (g + 1) s param a b st body
        (Value.real 0) with - | ⟨s4, r4⟩
    · simp only [hloop] at heval
      cases heval
    · cases r4 with
      | error e =>
        simp only [hloop] at heval
        injection heval with hp
        injection hp with h1 h2
        exact Except.noConfusion h2
      | ok sum =>
        simp only [hloop, hpre] at heval
        injection heval with hp
        injection hp with h1 h2
        exact h1 ▸ loopDesc_param_binding O (g + 1) param b st body hbody (g + 1)
          s a (Value.real 0) s4 sum hgt hloop

/-- Witness for C9: the loop `for i in 1..2 step 1 { i }` on a fresh state
leaves `i = 2` bound in locals after the loop. -/
theorem C9_loop_binding_persists_witness :
    tget ({ globals := [("pi", Value.real 3), ("e", Value.real 2)],
            locals := [("i", Value.real 2)], functions := [],
            in_function := false } : State).locals "i" = some (Value.real 2) := by
  refine C9_loop_binding_persists dummyOps 0 (initState dummyOps) _ "i" 1 2 1
    (.identifier "i") (Value.real 3) rfl (by norm_num) (by norm_num) ?_ ?_
  · intro w s₁ s₂ rv h1 h2
    have hs := evaluate_identifier_state dummyOps 1 s₁ s₂ "i" (.ok rv) h2
    rw [hs]
    exact h1
  · norm_num [evaluate, evalStep, initState, dummyOps, loopAsc, loopDesc, tget, tset,
      Value.expectReal, Value.real, valueAdd, State.addLocal]

/-- C9 counterexample: a loop whose two bounds are equal runs zero
iterations; with no pre-existing binding, the loop variable is *not*
bound in locals after the loop finishes (the state is unchanged), so the
claim's "the loop variable remains bound in locals" fails as stated. -/
theorem C9_zero_iteration_counterexample :
    evaluate dummyOps 9 (initState dummyOps)
        (.loop "i" (.range (.number 3 false) (.number 3 false) (.number 1 false))
          (.identifier "i"))
      = some (initState dummyOps, .ok (Value.real 0)) ∧
    tget (initState dummyOps).locals "i" = none := by
  constructor
  · norm_num [evaluate, evalStep, initState, dummyOps, loopAsc, loopDesc, tget,
      Value.expectReal, Value.real]
  · rfl

theorem valueAdd_real (p q : ℚ) :
    valueAdd (Value.real p) (Value.real q) = .ok (Value.real (p + q)) := by
  simp [valueAdd, Value.real]

theorem evaluate_ident_bound (O : Ops) (g : Nat) (s : State) (param : String) (w : Value)
    (h : tget s.locals param = some w) :
    evaluate O (g + 1) s (.identifier param) = some (s, .ok w) := by
  rw [evaluate]
  simp [evalStep, h]

theorem loopAsc_ident_visits (O : Ops) (g : Nat) (param : String) (b st : ℚ) :
    ∀ (f : Nat) (s : State) (x acc : ℚ), x < b →
      loopAsc (evaluate O (g + 1)) f s param x b st (.identifier param) (Value.real acc)
        = match ascVisits f x b st with
          | none => none
          | some l => some (s.addLocal param (Value.real b), .ok (Value.real (acc + l.sum)))
  | 0, s, x, acc, hx => by simp [loopAsc, ascVisits]
  | f + 1, s, x, acc, hx => by
    simp only [loopAsc, ascVisits, if_pos hx]
    rw [evaluate_ident_bound O g _ param (Value.real x) (by simp [tget_tset_self])]
    simp only [valueAdd_real]
    by_cases hlt : x + st < b
    · simp only [if_pos hlt]
      rw [loopAsc_ident_visits O g param b st f (s.addLocal param (Value.real x))
        (x + st) (acc + x) hlt]
      rcases hav : ascVisits f (x + st) b st with - | l <;> simp only [hav]
      rw [addLocal_addLocal]
      simp [List.sum_cons, add_assoc]
    · simp only [if_neg hlt]
      rw [evaluate_ident_bound O g _ param (Value.real b) (by simp [tget_tset_self])]
      simp only [valueAdd_real]
      rw [addLocal_addLocal]
      simp [List.sum_cons, add_assoc]

theorem ascVisits_count (b st : ℚ) (hst : 0 < st) :
    ∀ (f : Nat) (x : ℚ) (l : List ℚ), x < b →
      ascVisits f x b st = some l → l.count b = 1
  | 0, x, l, hx, h => by cases h
  | f + 1, x, l, hx, h => by
    simp only [ascVisits, if_pos hx] at h
    by_cases hlt : x + st < b
    · rw [if_pos hlt] at h
      rcases hav : ascVisits f (x + st) b st with - | l' <;> simp only [hav] at h
      · cases h
      · cases h
        have hc := ascVisits_count b st hst f (x + st) l' hlt hav
        have hxb : x ≠ b := ne_of_lt hx
        simp [List.count_cons, hc, hxb]
    · rw [if_neg hlt] at h
      cases h
      have hxb : x ≠ b := ne_of_lt hx
      simp [List.count_cons, hxb]

theorem loopDesc_ident_visits (O : Ops) (g : Nat) (param : String) (b st : ℚ) :
    ∀ (f : Nat) (s : State) (x acc : ℚ), x > b →
      loopDesc (evaluate O (g + 1)) f s param x b st (.identifier param) (Value.real acc)
        = match descVisits f x b st with
          | none => none
          | some l => some (s.addLocal param (Value.real b), .ok (Value.real (acc + l.sum)))
  | 0, s, x, acc, hx => by simp [loopDesc, descVisits]
  | f + 1, s, x, acc, hx => by
    simp only [loopDesc, descVisits, if_pos hx]
    rw [evaluate_ident_bound O g _ param (Value.real x) (by simp [tget_tset_self])]
    simp only [valueAdd_real]
    by_cases hlt : x - st > b
    · simp only [if_pos hlt]
      rw [loopDesc_ident_visits O g param b st f (s.addLocal param (Value.real x))
        (x - st) (acc + x) hlt]
      rcases hav : descVisits f (x - st) b st with - | l <;> simp only [hav]
      rw [addLocal_addLocal]
      simp [List.sum_cons, add_assoc]
    · simp only [if_neg hlt]
      rw [evaluate_ident_bound O g _ param (Value.real b) (by simp [tget_tset_self])]
      simp only [valueAdd_real]
      rw [addLocal_addLocal]
      simp [List.sum_cons, add_assoc]

theorem descVisits_count (b st : ℚ) (hst : 0 < st) :
    ∀ (f : Nat) (x : ℚ) (l : List ℚ), x > b →
      descVisits f x b st = some l → l.count b = 1
  | 0, x, l, hx, h => by cases h
  | f + 1, x, l, hx, h => by
    simp only [descVisits, if_pos hx] at h
    by_cases hlt : x - st > b
    · rw [if_pos hlt] at h
      rcases hav : descVisits f (x - st) b st with - | l' <;> simp only [hav] at h
      · cases h
      · cases h
        have hc := descVisits_count b st hst f (x - st) l' hlt hav
        have hxb : x ≠ b := ne_of_gt hx
        simp [List.count_cons, hc, hxb]
    · rw [if_neg hlt] at h
      cases h
      have hxb : x ≠ b := ne_of_gt hx
      simp [List.count_cons, hxb]

/-- C3 (amended): a Loop whose range bounds evaluate to real Numbers fails
when the step is exactly 0.  When the bounds differ and the step is
positive (the direction in which the loop makes progress), the loop's
value is the sum of the body's value over the iteration trace
(`ascVisits` ascending for `first < second`, `descVisits` descending for
`first > second`), and that trace contains the second bound exactly once
regardless of whether the step divides the range; in particular the loop
over range 1..5 with step 1 whose body is the loop variable returns 15.
(When the two bounds are equal the body is never evaluated and the loop
returns 0 — the claim's "second bound visited exactly once" fails there;
see the counterexample.) -/
theorem C3_loop_summation :
    (∀ (O : Ops) (g : Nat) (s : State) (param : String) (a b : ℚ) (body : Node),
      evaluate O (g + 2) s
          (.loop param (.range (.number a false) (.number b false) (.number 0 false)) body)
        = some (s, .error "a step cannot be 0")) ∧
    (∀ (O : Ops) (g f : Nat) (s : State) (param : String) (x b st acc : ℚ), x < b →
      loopAsc (evaluate O (g + 1)) f s param x b st (.identifier param) (Value.real acc)
        = match ascVisits f x b st with
          | none => none
          | some l => some (s.addLocal param (Value.real b), .ok (Value.real (acc + l.sum)))) ∧
    (∀ (f : Nat) (x b st : ℚ) (l : List ℚ), 0 < st → x < b →
      ascVisits f x b st = some l → l.count b = 1) ∧
    (∀ (O : Ops) (g f : Nat) (s : State) (param : String) (x b st acc : ℚ), x > b →
      loopDesc (evaluate O (g + 1)) f s param x b st (.identifier param) (Value.real acc)
        = match descVisits f x b st with
          | none => none
          | some l => some (s.addLocal param (Value.real b), .ok (Value.real (acc + l.sum)))) ∧
    (∀ (f : Nat) (x b st : ℚ) (l : List ℚ), 0 < st → x > b →
      descVisits f x b st = some l → l.count b = 1) ∧
    evaluate dummyOps 9 (initState dummyOps)
        (.loop "i" (.range (.number 1 false) (.number 5 false) (.number 1 false))
          (.identifier "i"))
      = some ({ globals := [("pi", Value.real 3), ("e", Value.real 2)],
                locals := [("i", Value.real 5)], functions := [],
                in_function := false }, .ok (Value.real 15)) := by
  refine ⟨?_, ?_, ?_, ?_, ?_, ?_⟩
  · intro O g s param a b body
    rw [evaluate_loop_literal]
    simp
  · intro O g f s param x b st acc hx
    exact loopAsc_ident_visits O g param b st f s x acc hx
  · intro f x b st l hst hx h
    exact ascVisits_count b st hst f x l hx h
  · intro O g f s param x b st acc hx
    exact loopDesc_ident_visits O g param b st f s x acc hx
  · intro f x b st l hst hx h
    exact descVisits_count b st hst f x l hx h
  · norm_num [evaluate, evalStep, initState, dummyOps, loopAsc, loopDesc, tget, tset,
      Value.expectReal, Value.real, valueAdd, State.addLocal]

/-- Witness for C3: the ascending loop `for i in 1..5 step 2 { i }` at the
`loopAsc` level sums the trace `[1, 3, 5]` to 9 (the step does not divide
the range, the snap visits 5), and the trace contains the second bound 5
exactly once. -/
theorem C3_loop_summation_witness :
    loopAsc (evaluate dummyOps 1) 3 (initState dummyOps) "i" 1 5 2 (.identifier "i")
        (Value.real 0)
      = some ((initState dummyOps).addLocal "i" (Value.real 5), .ok (Value.real 9)) ∧
    ([1, 3, 5] : List ℚ).count 5 = 1 := by
  constructor
  · have h2 := C3_loop_summation.2.1 dummyOps 0 3 (initState dummyOps) "i" 1 5 2 0
      (by norm_num)
    rw [h2]
    norm_num [ascVisits]
  · exact C3_loop_summation.2.2.1 3 1 5 2 [1, 3, 5] (by norm_num) (by norm_num)
      (by norm_num [ascVisits])

/-- C3 counterexample: a loop whose two range bounds are equal (range
4..4, step 1 — real bounds, nonzero step) evaluates its body zero times
and returns 0; the loop variable never takes the value of the second
bound, so "the loop variable takes the value of the second bound on
exactly one iteration" is false as stated (the sum would otherwise
include the body's value 4 at that iteration). -/
theorem C3_equal_bounds_counterexample :
    evaluate dummyOps 9 (initState dummyOps)
        (.loop "i" (.range (.number 4 false) (.number 4 false) (.number 1 false))
          (.identifier "i"))
      = some (initState dummyOps, .ok (Value.real 0)) ∧
    Value.real 0 ≠ Value.real 4 := by
  constructor
  · norm_num [evaluate, evalStep, initState, dummyOps, loopAsc, loopDesc, tget,
      Value.expectReal, Value.real]
  · norm_num [Value.real]

theorem foldl_removeLocal_in_function (acc : List String) :
    ∀ s : State, (acc.foldl State.removeLocal s).in_function = s.in_function := by
  induction acc with
  | nil => intro s; rfl
  | cons a rest ih =>
    intro s
    simp only [List.foldl_cons]
    exact (ih (s.removeLocal a)).trans rfl

theorem evalSeq_flag (ev : State → Node → Res) (H : PreservesFlag ev) :
    ∀ (ns : List Node) (s s' : State) (r : Except String (List Value)),
      noFCList ns = true → evalSeq ev s ns = some (s', r) →
      s'.in_function = s.in_function
  | [], s, s', r, hn, h => by
    cases h
    rfl
  | n :: rest, s, s', r, hn, h => by
    have hn' : noFC n = true ∧ noFCList rest = true := by
      simpa [noFCList, Bool.and_eq_true] using hn
    simp only [evalSeq] at h
    rcases h1 : ev s n with - | ⟨s1, r1⟩
    · simp only [h1] at h
      cases h
    · simp only [h1] at h
      cases r1 with
      | error e =>
        cases h
        exact H s n _ _ hn'.1 h1
      | ok v =>
        rcases h2 : evalSeq ev s1 rest with - | ⟨s2, r2⟩
        · simp only [h2] at h
          cases h
        · simp only [h2] at h
          have hf2 := evalSeq_flag ev H rest s1 s2 r2 hn'.2 h2
          cases r2 with
          | error e =>
            cases h
            exact hf2.trans (H s n s1 _ hn'.1 h1)
          | ok vs =>
            cases h
            exact hf2.trans (H s n s1 _ hn'.1 h1)

theorem evalAll_flag (ev : State → Node → Res) (H : PreservesFlag ev) :
    ∀ (ns : List Node) (s s' : State) (rs : List (Except String Value)),
      noFCList ns = true → evalAll ev s ns = some (s', rs) →
      s'.in_function = s.in_function
  | [], s, s', rs, hn, h => by
    cases h
    rfl
  | n :: rest, s, s', rs, hn, h => by
    have hn' : noFC n = true ∧ noFCList rest = true := by
      simpa [noFCList, Bool.and_eq_true] using hn
    simp only [evalAll] at h
    rcases h1 : ev s n with - | ⟨s1, r1⟩
    · simp only [h1] at h
      cases h
    · simp only [h1] at h
      rcases h2 : evalAll ev s1 rest with - | ⟨s2, rs2⟩
      · simp only [h2] at h
        cases h
      · simp only [h2] at h
        cases h
        exact (evalAll_flag ev H rest s1 _ _ hn'.2 h2).trans (H s n s1 _ hn'.1 h1)

theorem assignLoop_flag : ∀ (ids : List String) (s : State) (v : Value),
    (assignLoop s ids v).1.in_function = s.in_function
  | [], s, v => rfl
  | id :: rest, s, v => by
    simp only [assignLoop]
    split
    · rfl
    · split
      · rfl
      · exact (assignLoop_flag rest (s.addLocal id v) v).trans rfl

theorem treeRun_flag (ev : State → Node → Res) (H : PreservesFlag ev) :
    ∀ (ns : List Node) (s : State) (acc : List String) (last : Value) (s' : State)
      (r : Except String Value),
      noFCList ns = true → treeRun ev s ns acc last = some (s', r) →
      s'.in_function = s.in_function
  | [], s, acc, last, s', r, hn, h => by
    cases h
    exact foldl_removeLocal_in_function acc s
  | n :: rest, s, acc, last, s', r, hn, h => by
    have hn' : noFC n = true ∧ noFCList rest = true := by
      simpa [noFCList, Bool.and_eq_true] using hn
    simp only [treeRun] at h
    rcases h1 : ev s n with - | ⟨s1, r1⟩
    · simp only [h1] at h
      cases h
    · simp only [h1] at h
      cases r1 with
      | error e =>
        cases h
        exact H s n _ _ hn'.1 h1
      | ok v =>
        exact (treeRun_flag ev H rest s1 (acc ++ declName n) v s' r hn'.2 h).trans
          (H s n s1 _ hn'.1 h1)

theorem loopAsc_flag (ev : State → Node → Res) (H : PreservesFlag ev) (param : String)
    (b st : ℚ) (body : Node) (hb : noFC body = true) :
    ∀ (f : Nat) (s : State) (x : ℚ) (sum : Value) (s' : State) (r : Except String Value),
      loopAsc ev f s param x b st body sum = some (s', r) →
      s'.in_function = s.in_function
  | 0, s, x, sum, s', r, h => by cases h
  | f + 1, s, x, sum, s', r, h => by
    simp only [loopAsc] at h
    by_cases hx : x < b
    · rw [if_pos hx] at h
      rcases h1 : ev (s.addLocal param (Value.real x)) body with - | ⟨s2, r2⟩
      · simp only [h1] at h
        cases h
      · simp only [h1] at h
        have hf1 : s2.in_function = s.in_function :=
          (H _ body s2 r2 hb h1).trans (by simp)
        cases r2 with
        | error e =>
          cases h
          exact hf1
        | ok bv =>
          rcases hadd : valueAdd sum bv with e | sum2 <;> simp only [hadd] at h
          · cases h
            exact hf1
          · by_cases hlt : x + st < b
            · rw [if_pos hlt] at h
              exact (loopAsc_flag ev H param b st body hb f s2 (x + st) sum2 s' r h).trans hf1
            · rw [if_neg hlt] at h
              rcases h2 : ev (s2.addLocal param (Value.real b)) body with - | ⟨s4, r4⟩
              · simp only [h2] at h
                cases h
              · simp only [h2] at h
                have hf2 : s4.in_function = s2.in_function :=
                  (H _ body s4 r4 hb h2).trans (by simp)
                cases r4 with
                | error e =>
                  cases h
                  exact hf2.trans hf1
                | ok bv2 =>
                  rcases hadd2 : valueAdd sum2 bv2 with e | sum3 <;> simp only [hadd2] at h
                  · cases h
                    exact hf2.trans hf1
                  · cases h
                    exact hf2.trans hf1
    · rw [if_neg hx] at h
      cases h
      rfl

theorem loopDesc_flag (ev : State → Node → Res) (H : PreservesFlag ev) (param : String)
    (b st : ℚ) (body : Node) (hb : noFC body = true) :
    ∀ (f : Nat) (s : State) (x : ℚ) (sum : Value) (s' : State) (r : Except String Value),
      loopDesc ev f s param x b st body sum = some (s', r) →
      s'.in_function = s.in_function
  | 0, s, x, sum, s', r, h => by cases h
  | f + 1, s, x, sum, s', r, h => by
    simp only [loopDesc] at h
    by_cases hx : x > b
    · rw [if_pos hx] at h
      rcases h1 : ev (s.addLocal param (Value.real x)) body with - | ⟨s2, r2⟩
      · simp only [h1] at h
        cases h
      · simp only [h1] at h
        have hf1 : s2.in_function = s.in_function :=
          (H _ body s2 r2 hb h1).trans (by simp)
        cases r2 with
        | error e =>
          cases h
          exact hf1
        | ok bv =>
          rcases hadd : valueAdd sum bv with e | sum2 <;> simp only [hadd] at h
          · cases h
            exact hf1
          · by_cases hlt : x - st > b
            · rw [if_pos hlt] at h
              exact (loopDesc_flag ev H param b st body hb f s2 (x - st) sum2 s' r h).trans hf1
            · rw [if_neg hlt] at h
              rcases h2 : ev (s2.addLocal param (Value.real b)) body with - | ⟨s4, r4⟩
              · simp only [h2] at h
                cases h
              · simp only [h2] at h
                have hf2 : s4.in_function = s2.in_function :=
                  (H _ body s4 r4 hb h2).trans (by simp)
                cases r4 with
                | error e =>
                  cases h
                  exact hf2.trans hf1
                | ok bv2 =>
                  rcases hadd2 : valueAdd sum2 bv2 with e | sum3 <;> simp only [hadd2] at h
                  · cases h
                    exact hf2.trans hf1
                  · cases h
                    exact hf2.trans hf1
    · rw [if_neg hx] at h
      cases h
      rfl

theorem evalStep_flag (O : Ops) (fl : Nat) (ev : State → Node → Res) (H : PreservesFlag ev) :
    PreservesFlag (evalStep O fl ev) := by
  intro s n s' r hn h
  cases n with
  | number num im =>
    simp only [evalStep] at h
    cases h
    rfl
  | identifier id =>
    simp only [evalStep] at h
    rcases hl : tget s.locals id with - | w <;> simp only [hl] at h
    · rcases hg : tget s.globals id with - | w2 <;> simp only [hg] at h
      · cases h
        rfl
      · cases h
        rfl
    · cases h
      rfl
  | operation l op rn =>
    have hn' : noFC l = true ∧ noFC rn = true := by
      simpa [noFC, Bool.and_eq_true] using hn
    simp only [evalStep] at h
    rcases h1 : ev s l with - | ⟨s1, r1⟩
    · simp only [h1] at h
      cases h
    · simp only [h1] at h
      cases r1 with
      | error e =>
        cases h
        exact H s l _ _ hn'.1 h1
      | ok lv =>
        have hf1 := H s l s1 _ hn'.1 h1
        rcases h2 : ev s1 rn with - | ⟨s2, r2⟩
        · simp only [h2] at h
          cases h
        · simp only [h2] at h
          have hf2 := (H s1 rn s2 _ hn'.2 h2).trans hf1
          cases r2 with
          | error e =>
            cases h
            exact hf2
          | ok rv =>
            cases h
            exact hf2
  | functionCall name args => exact absurd hn (by simp [noFC])
  | functionDeclaration name params body =>
    simp only [evalStep] at h
    split at h
    · cases h
      rfl
    · cases h
      simp
  | variableDeclaration name e =>
    have hne : noFC e = true := by simpa [noFC] using hn
    simp only [evalStep] at h
    split at h
    · cases h
      rfl
    · rcases h1 : ev s e with - | ⟨s1, r1⟩
      · simp only [h1] at h
        cases h
      · simp only [h1] at h
        cases r1 with
        | error er =>
          cases h
          exact H s e _ _ hne h1
        | ok v =>
          have hf1 := H s e s1 _ hne h1
          have h' : (if s1.in_function = true then
                some (s1.addLocal name v, Except.ok (Value.real 0))
              else some (s1.addGlobal name v, Except.ok (Value.real 0)))
              = some (s', r) := h
          by_cases hif : s1.in_function = true
          · rw [if_pos hif] at h'
            cases h'
            exact (State.addLocal_in_function s1 name v).trans hf1
          · rw [if_neg hif] at h'
            cases h'
            exact (State.addGlobal_in_function s1 name v).trans hf1
  | conditional p tbr fbr =>
    obtain ⟨⟨hp, ht⟩, hfb⟩ : (noFC p = true ∧ noFC tbr = true) ∧ noFC fbr = true := by
      simpa [noFC, Bool.and_eq_true] using hn
    simp only [evalStep] at h
    rcases h1 : ev s p with - | ⟨s1, r1⟩
    · simp only [h1] at h
      cases h
    · simp only [h1] at h
      cases r1 with
      | error e =>
        cases h
        exact H s p _ _ hp h1
      | ok pv =>
        have hf1 := H s p s1 _ hp h1
        rcases h2 : Value.expectReal pv
            "a predicate to a conditional expression must be a number" with e | q <;>
          simp only [h2] at h
        · cases h
          exact hf1
        · by_cases hq : q ≠ 0
          · rw [if_pos hq] at h
            exact (H s1 tbr s' r ht h).trans hf1
          · rw [if_neg hq] at h
            exact (H s1 fbr s' r hfb h).trans hf1
  | loop param rng body =>
    have hn' : noFC rng = true ∧ noFC body = true := by
      simpa [noFC, Bool.and_eq_true] using hn
    simp only [evalStep] at h
    cases rng with
    | number num im =>
      cases h
      rfl
    | identifier nm2 =>
      cases h
      rfl
    | operation l2 op2 r2 =>
      cases h
      rfl
    | functionCall nm2 args2 =>
      cases h
      rfl
    | functionDeclaration nm2 ps2 b2 =>
      cases h
      rfl
    | variableDeclaration nm2 e2 =>
      cases h
      rfl
    | conditional p2 t2 f2 =>
      cases h
      rfl
    | loop p2 r2 b2 =>
      cases h
      rfl
    | assignment ids2 e2 =>
      cases h
      rfl
    | factorial e2 =>
      cases h
      rfl
    | tree ns2 =>
      cases h
      rfl
    | arrayLit es2 =>
      cases h
      rfl
    | indexAccess a2 i2 =>
      cases h
      rfl
    | range firstN secondN stepN =>
      obtain ⟨⟨hb1, hb2⟩, hb3⟩ :
          (noFC firstN = true ∧ noFC secondN = true) ∧ noFC stepN = true := by
        simpa [noFC, Bool.and_eq_true] using hn'.1
      rcases h1 : ev s firstN with - | ⟨s1, r1⟩
      · simp only [h1] at h
        cases h
      · simp only [h1] at h
        cases r1 with
        | error e =>
          cases h
          exact H s firstN _ _ hb1 h1
        | ok fv =>
          have hf1 := H s firstN s1 _ hb1 h1
          rcases her1 : Value.expectReal fv "the first bound must be a real number"
              with e | a <;> simp only [her1] at h
          · cases h
            exact hf1
          · rcases h2 : ev s1 secondN with - | ⟨s2, r2⟩
            · simp only [h2] at h
              cases h
            · simp only [h2] at h
              cases r2 with
              | error e =>
                cases h
                exact (H s1 secondN _ _ hb2 h2).trans hf1
              | ok sv =>
                have hf2 := (H s1 secondN s2 _ hb2 h2).trans hf1
                rcases her2 : Value.expectReal sv "the second bound must be a real number"
                    with e | b <;> simp only [her2] at h
                · cases h
                  exact hf2
                · rcases h3 : ev s2 stepN with - | ⟨s3, r3⟩
                  · simp only [h3] at h
                    cases h
                  · simp only [h3] at h
                    cases r3 with
                    | error e =>
                      cases h
                      exact (H s2 stepN _ _ hb3 h3).trans hf2
                    | ok stv =>
                      have hf3 := (H s2 stepN s3 _ hb3 h3).trans hf2
                      rcases her3 : Value.expectReal stv "the step must be a number"
                          with e | st <;> simp only [her3] at h
                      · cases h
                        exact hf3
                      · by_cases hz : st = 0
                        · rw [if_pos hz] at h
                          cases h
                          exact hf3
                        · rw [if_neg hz] at h
                          by_cases hab : a < b
                          · rw [if_pos hab] at h
                            rcases hl : loopAsc ev fl s3 param a b st body (Value.real 0)
                                with - | ⟨s4, r4⟩ <;> simp only [hl] at h
                            · cases h
                            · have hf4 := (loopAsc_flag ev H param b st body hn'.2 fl s3 a
                                (Value.real 0) s4 r4 hl).trans hf3
                              cases r4 with
                              | error e =>
                                cases h
                                exact hf4
                              | ok sum =>
                                rcases hp : tget s3.locals param with - | w <;>
                                  simp only [hp] at h
                                · cases h
                                  exact hf4
                                · cases h
                                  exact (State.addLocal_in_function s4 param w).trans hf4
                          · rw [if_neg hab] at h
                            rcases hl : loopDesc ev fl s3 param a b st body (Value.real 0)
                                with - | ⟨s4, r4⟩ <;> simp only [hl] at h
                            · cases h
                            · have hf4 := (loopDesc_flag ev H param b st body hn'.2 fl s3 a
                                (Value.real 0) s4 r4 hl).trans hf3
                              cases r4 with
                              | error e =>
                                cases h
                                exact hf4
                              | ok sum =>
                                rcases hp : tget s3.locals param with - | w <;>
                                  simp only [hp] at h
                                · cases h
                                  exact hf4
                                · cases h
                                  exact (State.addLocal_in_function s4 param w).trans hf4
  | assignment ids e =>
    have hne : noFC e = true := by simpa [noFC] using hn
    simp only [evalStep] at h
    rcases h1 : ev s e with - | ⟨s1, r1⟩
    · simp only [h1] at h
      cases h
    · simp only [h1] at h
      cases r1 with
      | error er =>
        cases h
        exact H s e _ _ hne h1
      | ok v =>
        have hf1 := H s e s1 _ hne h1
        have hal := assignLoop_flag ids s1 v
        rcases ha : assignLoop s1 ids v with ⟨s2, o⟩
        rw [ha] at hal
        cases o with
        | none =>
          simp only [ha] at h
          cases h
          exact hal.trans hf1
        | some e2 =>
          simp only [ha] at h
          cases h
          exact hal.trans hf1
  | factorial e =>
    have hne : noFC e = true := by simpa [noFC] using hn
    simp only [evalStep] at h
    rcases h1 : ev s e with - | ⟨s1, r1⟩
    · simp only [h1] at h
      cases h
    · simp only [h1] at h
      cases r1 with
      | error er =>
        cases h
        exact H s e _ _ hne h1
      | ok v =>
        rcases h2 : factorialValue O fl v with - | r2 <;> simp only [h2] at h
        · cases h
        · cases h
          exact H s e _ _ hne h1
  | tree ns =>
    have hns : noFCList ns = true := by simpa [noFC] using hn
    simp only [evalStep] at h
    cases ns with
    | nil =>
      cases h
      rfl
    | cons n1 rest =>
      rcases hlast : (n1 :: rest).getLast? with - | ln
      · simp only [hlast] at h
        exact treeRun_flag ev H (n1 :: rest) s [] (Value.real 0) s' r hns h
      · simp only [hlast] at h
        cases ln with
        | variableDeclaration nm2 e2 =>
          cases h
          rfl
        | functionDeclaration nm2 ps2 b2 =>
          cases h
          rfl
        | number num im =>
          exact treeRun_flag ev H (n1 :: rest) s [] (Value.real 0) s' r hns h
        | identifier nm2 =>
          exact treeRun_flag ev H (n1 :: rest) s [] (Value.real 0) s' r hns h
        | operation l2 op2 r2 =>
          exact treeRun_flag ev H (n1 :: rest) s [] (Value.real 0) s' r hns h
        | functionCall nm2 args2 =>
          exact treeRun_flag ev H (n1 :: rest) s [] (Value.real 0) s' r hns h
        | conditional p2 t2 f2 =>
          exact treeRun_flag ev H (n1 :: rest) s [] (Value.real 0) s' r hns h
        | loop p2 r2 b2 =>
          exact treeRun_flag ev H (n1 :: rest) s [] (Value.real 0) s' r hns h
        | assignment ids2 e2 =>
          exact treeRun_flag ev H (n1 :: rest) s [] (Value.real 0) s' r hns h
        | factorial e2 =>
          exact treeRun_flag ev H (n1 :: rest) s [] (Value.real 0) s' r hns h
        | tree ns2 =>
          exact treeRun_flag ev H (n1 :: rest) s [] (Value.real 0) s' r hns h
        | arrayLit es2 =>
          exact treeRun_flag ev H (n1 :: rest) s [] (Value.real 0) s' r hns h
        | indexAccess a2 i2 =>
          exact treeRun_flag ev H (n1 :: rest) s [] (Value.real 0) s' r hns h
        | range a2 b2 c2 =>
          exact treeRun_flag ev H (n1 :: rest) s [] (Value.real 0) s' r hns h
  | arrayLit exprs =>
    have hns : noFCList exprs = true := by simpa [noFC] using hn
    simp only [evalStep] at h
    rcases h1 : evalSeq ev s exprs with - | ⟨s1, r1⟩
    · simp only [h1] at h
      cases h
    · simp only [h1] at h
      have hf1 := evalSeq_flag ev H exprs s s1 r1 hns h1
      cases r1 with
      | error e =>
        cases h
        exact hf1
      | ok vs =>
        cases h
        exact hf1
  | indexAccess arrE idxE =>
    have hn' : noFC arrE = true ∧ noFC idxE = true := by
      simpa [noFC, Bool.and_eq_true] using hn
    simp only [evalStep] at h
    rcases h1 : ev s arrE with - | ⟨s1, r1⟩
    · simp only [h1] at h
      cases h
    · simp only [h1] at h
      cases r1 with
      | error e =>
        cases h
        exact H s arrE _ _ hn'.1 h1
      | ok av =>
        have hf1 := H s arrE s1 _ hn'.1 h1
        rcases ha : Value.expectArray av "cannot index a non-array" with e | arr <;>
          simp only [ha] at h
        · cases h
          exact hf1
        · rcases h2 : ev s1 idxE with - | ⟨s2, r2⟩
          · simp only [h2] at h
            cases h
          · simp only [h2] at h
            cases r2 with
            | error e =>
              cases h
              exact (H s1 idxE _ _ hn'.2 h2).trans hf1
            | ok iv =>
              have hf2 := (H s1 idxE s2 _ hn'.2 h2).trans hf1
              rcases hi : Value.expectReal iv "tried to index using non-number"
                  with e | idx <;> simp only [hi] at h
              · cases h
                exact hf2
              · split at h
                · cases h
                  exact hf2
                · split at h
                  · cases h
                    exact hf2
                  · cases h
                    exact hf2
  | range a b c =>
    simp only [evalStep] at h
    cases h
    rfl

theorem evaluate_flag (O : Ops) : ∀ f : Nat, PreservesFlag (evaluate O f)
  | 0 => by
    intro s n s' r hn h
    cases h
  | f + 1 => by
    intro s n s' r hn h
    exact evalStep_flag O f (evaluate O f) (evaluate_flag O f) s n s' r hn h

/-- C1 (amended): the FunctionCall arm sets `in_function` to true for
*every* call — builtin calls included (the flag is set before the
builtin/user branch), so a builtin call whose arguments contain no
function call returns with the flag true; the flag is reset to false when
a user-function body finishes *successfully*; evaluation of any node
containing no FunctionCall leaves the flag unchanged; consequently, for
every program whose evaluation performs no function call at all (rather
than merely never entering a user-defined function body), a
VariableDeclaration evaluated with the flag false stores its value in
globals. -/
theorem C1_in_function_flag :
    (∀ (O : Ops) (f : Nat) (s s' : State) (name : String) (args : List Node)
      (r : Except String Value),
      isBuiltin name = true → noFCList args = true →
      evaluate O (f + 1) s (.functionCall name args) = some (s', r) →
      s'.in_function = true) ∧
    (∀ (O : Ops) (f : Nat) (s s' : State) (name nm : String) (params : List String)
      (args : List Node) (body : Node) (v : Value),
      isBuiltin name = false →
      tget s.functions name = some (.functionDeclaration nm params body) →
      evaluate O (f + 1) s (.functionCall name args) = some (s', .ok v) →
      s'.in_function = false) ∧
    (∀ (O : Ops) (f : Nat) (s s' : State) (n : Node) (r : Except String Value),
      noFC n = true → evaluate O f s n = some (s', r) →
      s'.in_function = s.in_function) ∧
    (∀ (O : Ops) (f : Nat) (s s1 : State) (name : String) (e : Node) (v : Value),
      s.in_function = false → noFC e = true →
      s.hasGlobal name = false → s.hasLocal name = false →
      evaluate O f s e = some (s1, .ok v) →
      evaluate O (f + 1) s (.variableDeclaration name e)
        = some (s1.addGlobal name v, .ok (Value.real 0))) := by
  refine ⟨?_, ?_, ?_, ?_⟩
  · intro O f s s' name args r hb hargs h
    have hhf : s.hasFunction name = true := by simp [State.hasFunction, hb]
    simp only [evaluate, evalStep] at h
    rw [if_neg (by simp [hhf])] at h
    rw [if_pos hb] at h
    by_cases harity : args.length ≠ builtinParamCount name
    · rw [if_pos harity] at h
      cases h
      rfl
    · rw [if_neg harity] at h
      rcases hall : evalAll (evaluate O f) { s with in_function := true } args
          with - | ⟨s1, results⟩
      · simp only [hall] at h
        cases h
      · simp only [hall] at h
        have hf1 : s1.in_function = true := by
          have hp := evalAll_flag (evaluate O f) (evaluate_flag O f) args
            { s with in_function := true } s1 results hargs hall
          simpa using hp
        rcases hfe : firstErr results with - | e2 <;> simp only [hfe] at h
        · cases h
          exact hf1
        · cases h
          exact hf1
  · intro O f s s' name nm params args body v hnb hfn h
    have hhf : s.hasFunction name = true := by simp [State.hasFunction, hfn]
    simp only [evaluate, evalStep] at h
    rw [if_neg (by simp [hhf])] at h
    rw [if_neg (by simp [hnb])] at h
    simp only [hfn] at h
    by_cases hlen : args.length ≠ params.length
    · rw [if_pos hlen] at h
      injection h with hp
      injection hp with h1 h2
      exact Except.noConfusion h2
    · rw [if_neg hlen] at h
      rcases hbp : bindParams (evaluate O f) { s with in_function := true } params args
          with - | ⟨s1, o⟩
      · simp only [hbp] at h
        cases h
      · simp only [hbp] at h
        cases o with
        | some e2 =>
          injection h with hp
          injection hp with h1 h2
          exact Except.noConfusion h2
        | none =>
          rcases hbd : evaluate O f s1 body with - | ⟨s2, r2⟩
          · simp only [hbd] at h
            cases h
          · simp only [hbd] at h
            cases r2 with
            | error e2 =>
              injection h with hp
              injection hp with h1 h2
              exact Except.noConfusion h2
            | ok result =>
              cases h
              rfl
  · intro O f s s' n r hn h
    exact evaluate_flag O f s n s' r hn h
  · intro O f s s1 name e v hf hne hg hl he
    have hflag : s1.in_function = false := (evaluate_flag O f s e s1 _ hne he).trans hf
    simp [evaluate, evalStep, he, hg, hl, hflag]

/-- Witness for C1: on a fresh state (flag false), declaring `w = 1`
(whose initializer performs no call) stores `w` into globals. -/
theorem C1_in_function_flag_witness :
    evaluate dummyOps 2 (initState dummyOps) (.variableDeclaration "w" (.number 1 false))
      = some ((initState dummyOps).addGlobal "w" (Value.real 1), .ok (Value.real 0)) :=
  C1_in_function_flag.2.2.2 dummyOps 1 (initState dummyOps) (initState dummyOps) "w"
    (.number 1 false) (Value.real 1) rfl (by simp [noFC]) rfl rfl rfl

/-- C1 counterexample: the claim as stated is false — `in_function` *is*
set by a builtin-function call.  After evaluating the builtin call
`len([])` at top level (a program that never enters a user-defined
function body), the flag is true, and a subsequent top-level
VariableDeclaration stores its value in locals, not globals. -/
theorem C1_builtin_sets_flag_counterexample :
    evaluate dummyOps 5 (initState dummyOps) (.functionCall "len" [.arrayLit []])
      = some ({ initState dummyOps with in_function := true }, .ok (Value.real 0)) ∧
    ({ initState dummyOps with in_function := true } : State).in_function = true ∧
    evaluate dummyOps 5 { initState dummyOps with in_function := true }
        (.variableDeclaration "w" (.number 1 false))
      = some ({ globals := [("pi", Value.real 3), ("e", Value.real 2)],
                locals := [("w", Value.real 1)], functions := [], in_function := true },
              .ok (Value.real 0)) ∧
    tget ({ globals := [("pi", Value.real 3), ("e", Value.real 2)],
            locals := [("w", Value.real 1)], functions := [], in_function := true }
          : State).globals "w" = none :=
  ⟨rfl, rfl, rfl, rfl⟩

end Leib
